import Mathlib

set_option maxRecDepth 4000

/-!
Verification of the SkyWeave network-planning core against its specification.

The definitions below are a shallow embedding of the Python source files
`rasm_optimizer.py`, `data_parser.py`, `demand_decomposition.py` and
`segment_inference.py`.  Python floats are modelled by exact rationals, and
Python `round(x, n)` by rounding `x * 10^n` to the nearest integer.  Code
that can raise is modelled with `Except String`.  The MILP solver invoked
through PuLP is abstracted as an oracle producing a status string and an
integer assignment of the decision variables; the constraint system that the
code hands to the solver is reproduced as an explicit predicate on that
assignment.
-/

/-- Rounding to `n` decimal digits, the model of Python `round(x, n)`.
Python rounds exact halves to even; this model rounds them up.  The two
agree away from exact ties, and every concrete input used below is
checked to be away from a tie. -/
def roundTo (n : ℕ) (x : ℚ) : ℚ := (round (x * 10 ^ n) : ℚ) / 10 ^ n

/-- Rounding to four decimal digits, used by every segment-mix normalization. -/
def round4 (x : ℚ) : ℚ := roundTo 4 x

/-- Model of Python `round(x)` to an integer. -/
def roundInt (x : ℚ) : ℤ := round x

/- ====================================================================
   rasm_optimizer.py — stage-length adjusted CASM
   ==================================================================== -/

/-- Embedding of `calculate_stage_length_casm(distance_nm, base_casm)`.
The Python signature defaults `base_casm` to 10.5; the default is spelled
out at every call site below. -/
def calculate_stage_length_casm (distance_nm : ℚ) (base_casm : ℚ) : ℚ :=
  if distance_nm ≤ 0 then 15.0
  else
    -- fixed_penalty_per_asm = 1000 (calibration factor, nm * cents)
    base_casm + 1000 / distance_nm

/-- The CASM function at its default `base_casm = 10.5`, as used by the
optimizer and the equipment-swap evaluator. -/
def casmDefault (distance_nm : ℚ) : ℚ := calculate_stage_length_casm distance_nm 10.5

/- ====================================================================
   rasm_optimizer.py — fleet characteristics
   ==================================================================== -/

/-- Static aircraft-type record from `AIRCRAFT_SPECS`. -/
structure AircraftSpec where
  seats : ℕ
  range_nm : ℕ
  fuel_burn_per_hour : ℕ
  hourly_cost : ℕ
  crew_pilots : ℕ
  crew_fas : ℕ
deriving DecidableEq, Repr

/-- Embedding of the `AIRCRAFT_SPECS` table, in its source order. -/
def AIRCRAFT_SPECS : List (String × AircraftSpec) :=
  [("A319", ⟨145, 3700, 650, 4500, 2, 3⟩),
   ("A320neo", ⟨182, 3500, 600, 4800, 2, 4⟩),
   ("A321neo", ⟨228, 4000, 700, 5200, 2, 5⟩)]

/-- The aircraft-type keys of `AIRCRAFT_SPECS`, in iteration order. -/
def acTypes : List String := AIRCRAFT_SPECS.map Prod.fst

/-- Lookup of a spec by type name. -/
def specLookup (t : String) : Option AircraftSpec := AIRCRAFT_SPECS.lookup t

/-- Model of `AIRCRAFT_SPECS.get(t, AIRCRAFT_SPECS["A320neo"])`, the
fallback used by `EquipmentSwapOptimizer.evaluate_options`. -/
def specOrA320neo (t : String) : AircraftSpec :=
  (specLookup t).getD ⟨182, 3500, 600, 4800, 2, 4⟩

/-- Seat count of an aircraft type; every use below is at a key of the
table, where the default is never reached. -/
def seatsOf (t : String) : ℕ := ((specLookup t).map AircraftSpec.seats).getD 0

/- ====================================================================
   rasm_optimizer.py — data structures
   ==================================================================== -/

/-- Embedding of the `Route` dataclass. -/
structure Route where
  origin : String
  destination : String
  distance_nm : ℚ
  daily_demand : ℚ
  avg_fare : ℚ
  competitors : ℤ
  min_frequency : ℕ
  max_frequency : ℤ
deriving DecidableEq, Repr

/-- Embedding of the `Aircraft` dataclass (fields the optimizer reads). -/
structure Aircraft where
  registration : String
  aircraft_type : String
  seats : ℕ
  home_base : String
  available : Bool
deriving DecidableEq, Repr

/-- Embedding of the `CrewBase` dataclass (fields the optimizer reads). -/
structure CrewBase where
  base : String
  pilots_available : ℕ
  fas_available : ℕ
deriving DecidableEq, Repr

/- ====================================================================
   Generic list machinery: a stable descending sort (the model of
   Python `list.sort(key=..., reverse=True)`, which is stable) and the
   model of Python `max(iterable, key=...)`, which keeps the first
   maximal element.
   ==================================================================== -/

/-- Insert `x` in front of the first element whose key is not larger.
Processing the original list from the right, this places each element
before all later elements of equal key, so the sort below is stable. -/
def insertDescBy {α : Type} {β : Type} [LinearOrder β] (key : α → β) (x : α) :
    List α → List α
  | [] => [x]
  | y :: ys => if key y ≤ key x then x :: y :: ys else y :: insertDescBy key x ys

/-- Stable sort by descending key: the model of Python
`list.sort(key=..., reverse=True)`. -/
def sortDescBy {α : Type} {β : Type} [LinearOrder β] (key : α → β) : List α → List α
  | [] => []
  | x :: xs => insertDescBy key x (sortDescBy key xs)

/-- Model of Python `max(h :: t, key=...)`: the accumulator is replaced
only on a strict increase, so ties keep the earliest element. -/
def pyMaxBy {α : Type} {β : Type} [LinearOrder β] (key : α → β) (h : α) (t : List α) : α :=
  t.foldl (fun best x => if key best < key x then x else best) h

/- ====================================================================
   rasm_optimizer.py — EquipmentSwapOptimizer
   ==================================================================== -/

/-- One entry of the option list produced by `evaluate_options`. -/
structure SwapOption where
  option : String
  equipment : String
  frequency : ℤ
  seats : ℕ
  daily_capacity : ℤ
  expected_pax : ℤ
  load_factor : ℚ
  revenue : ℤ
  cost : ℤ
  profit : ℤ
  rasm_cents : ℚ
  asm : ℤ
  delta_profit : ℤ
  delta_rasm : ℚ
  recommendation : String
deriving DecidableEq, Repr

/-- Embedding of `EquipmentSwapOptimizer._get_recommendation`. -/
def getRecommendation (delta_profit delta_rasm : ℚ) : String :=
  if delta_profit > 5000 ∧ delta_rasm > 0.5 then "strongly_recommended"
  else if delta_profit > 2000 ∧ delta_rasm > 0 then "recommended"
  else if delta_profit > 0 then "consider"
  else if delta_profit < -2000 then "avoid"
  else "neutral"

/-- The current-state baseline entry of `evaluate_options`.  The current
spec is `AIRCRAFT_SPECS.get(current_eq, AIRCRAFT_SPECS["A320neo"])`. -/
def currentSwapOption (route : Route) (current_eq : String) (current_freq : ℤ) :
    SwapOption :=
  let current_specs := specOrA320neo current_eq
  let casm := casmDefault route.distance_nm
  let current_asm : ℚ := current_specs.seats * route.distance_nm * current_freq
  let current_capacity : ℤ := current_specs.seats * current_freq
  let current_pax : ℚ := min route.daily_demand ((current_capacity : ℚ) * 0.95)
  let current_revenue : ℚ := current_pax * route.avg_fare
  let current_cost : ℚ := casm * current_asm / 100
  let current_rasm : ℚ :=
    if current_asm > 0 then current_revenue / current_asm * 100 else 0
  let current_profit : ℚ := current_revenue - current_cost
  { option := "Current"
    equipment := current_eq
    frequency := current_freq
    seats := current_specs.seats
    daily_capacity := current_capacity
    expected_pax := roundInt current_pax
    load_factor :=
      if current_capacity > 0 then roundTo 1 (current_pax / current_capacity * 100) else 0
    revenue := roundInt current_revenue
    cost := roundInt current_cost
    profit := roundInt current_profit
    rasm_cents := roundTo 2 current_rasm
    asm := roundInt current_asm
    delta_profit := 0
    delta_rasm := 0
    recommendation := "baseline" }

/-- One alternative entry of `evaluate_options`, for aircraft spec
`(eq_type, specs)` and frequency delta `freq_delta`. -/
def alternativeSwapOption (route : Route) (current_eq : String) (current_freq : ℤ)
    (eq_type : String) (specs : AircraftSpec) (freq_delta : ℤ) : SwapOption :=
  let current_specs := specOrA320neo current_eq
  let casm := casmDefault route.distance_nm
  let current_asm : ℚ := current_specs.seats * route.distance_nm * current_freq
  let current_capacity : ℤ := current_specs.seats * current_freq
  let current_pax : ℚ := min route.daily_demand ((current_capacity : ℚ) * 0.95)
  let current_revenue : ℚ := current_pax * route.avg_fare
  let current_cost : ℚ := casm * current_asm / 100
  let current_rasm : ℚ :=
    if current_asm > 0 then current_revenue / current_asm * 100 else 0
  let current_profit : ℚ := current_revenue - current_cost
  let new_freq := current_freq + freq_delta
  let new_asm : ℚ := specs.seats * route.distance_nm * new_freq
  let new_capacity : ℤ := specs.seats * new_freq
  let new_pax : ℚ := min route.daily_demand ((new_capacity : ℚ) * 0.95)
  let new_revenue : ℚ := new_pax * route.avg_fare
  let new_cost : ℚ := casm * new_asm / 100
  let new_rasm : ℚ := if new_asm > 0 then new_revenue / new_asm * 100 else 0
  let new_profit : ℚ := new_revenue - new_cost
  let base_type : String :=
    if specs.seats > current_specs.seats then "Upgauge"
    else if specs.seats < current_specs.seats then "Downgauge"
    else "Refrequency"
  let option_type : String :=
    if freq_delta > 0 then base_type ++ " (+" ++ toString freq_delta ++ ")"
    else if freq_delta < 0 then base_type ++ " (" ++ toString freq_delta ++ ")"
    else base_type
  { option := option_type
    equipment := eq_type
    frequency := new_freq
    seats := specs.seats
    daily_capacity := new_capacity
    expected_pax := roundInt new_pax
    load_factor :=
      if new_capacity > 0 then roundTo 1 (new_pax / new_capacity * 100) else 0
    revenue := roundInt new_revenue
    cost := roundInt new_cost
    profit := roundInt new_profit
    rasm_cents := roundTo 2 new_rasm
    asm := roundInt new_asm
    delta_profit := roundInt (new_profit - current_profit)
    delta_rasm := roundTo 2 (new_rasm - current_rasm)
    recommendation := getRecommendation (new_profit - current_profit) (new_rasm - current_rasm) }

/-- The alternative entries of `evaluate_options`, enumerated over the
spec table in its order and frequency deltas `[-1, 0, 1]`, skipping
frequencies outside `[1, route.max_frequency]` and the current state. -/
def swapAlternatives (route : Route) (current_eq : String) (current_freq : ℤ) :
    List SwapOption :=
  AIRCRAFT_SPECS.flatMap (fun ts =>
    ([-1, 0, 1] : List ℤ).filterMap (fun freq_delta =>
      let new_freq := current_freq + freq_delta
      if new_freq < 1 ∨ new_freq > route.max_frequency then none
      else if ts.1 = current_eq ∧ freq_delta = 0 then none
      else some (alternativeSwapOption route current_eq current_freq ts.1 ts.2 freq_delta)))

/-- The enumeration order of `evaluate_options` before the final sort:
the current-state baseline first, then the alternatives. -/
def enumSwapOptions (route : Route) (current_eq : String) (current_freq : ℤ) :
    List SwapOption :=
  currentSwapOption route current_eq current_freq ::
    swapAlternatives route current_eq current_freq

/-- Embedding of `EquipmentSwapOptimizer.evaluate_options`: the enumerated
options sorted by descending `delta_profit` (Python `list.sort` is stable). -/
def evaluateOptions (route : Route) (current_eq : String) (current_freq : ℤ) :
    List SwapOption :=
  sortDescBy SwapOption.delta_profit (enumSwapOptions route current_eq current_freq)

/-- Embedding of `EquipmentSwapOptimizer.get_best_option`: Python
`max(options, key=lambda x: x.delta_profit)` over the sorted list.  The
list is never empty (it always holds the baseline), so the model returns
`some`; `none` is the model of the `ValueError` of `max` on an empty list. -/
def getBestOption (route : Route) (current_eq : String) (current_freq : ℤ) :
    Option SwapOption :=
  match evaluateOptions route current_eq current_freq with
  | [] => none
  | h :: t => some (pyMaxBy SwapOption.delta_profit h t)

/- ====================================================================
   Python dict machinery: insertion-ordered association lists where an
   existing key keeps its position and takes the new value, as in a
   Python dict comprehension.
   ==================================================================== -/

/-- Upsert into an insertion-ordered association list: an existing key
keeps its position and receives the new value, a new key is appended. -/
def dictInsert {β : Type} (k : String) (v : β) : List (String × β) → List (String × β)
  | [] => [(k, v)]
  | (k1, v1) :: rest =>
      if k1 = k then (k, v) :: rest else (k1, v1) :: dictInsert k v rest

/-- Build a dict from a list of key-value pairs, the model of a Python
dict comprehension (first-occurrence order, last value wins). -/
def dictOfList {β : Type} (l : List (String × β)) : List (String × β) :=
  l.foldl (fun acc kv => dictInsert kv.1 kv.2 acc) []

/-- Increment a counter keyed by an arbitrary type, appending new keys. -/
def bumpCount {κ : Type} [DecidableEq κ] (k : κ) :
    List (κ × ℕ) → List (κ × ℕ)
  | [] => [(k, 1)]
  | (k1, n) :: rest =>
      if k1 = k then (k1, n + 1) :: rest else (k1, n) :: bumpCount k rest

/- ====================================================================
   rasm_optimizer.py — FrequencyOptimizer: construction
   ==================================================================== -/

/-- The route key `f"{r.origin}-{r.destination}"`. -/
def routeKey (r : Route) : String := r.origin ++ "-" ++ r.destination

/-- The constructed state of a `FrequencyOptimizer`:
`self.routes` (a dict keyed by route key), the fleet list, `self.crew_bases`
(a dict keyed by base) and `self.fleet_by_type_base` from `_aggregate_fleet`. -/
structure Optimizer where
  routes : List (String × Route)
  fleet : List Aircraft
  crew_bases : List (String × CrewBase)
  fleet_by_type_base : List ((String × String) × ℕ)

/-- Embedding of `FrequencyOptimizer._aggregate_fleet`: available aircraft
counted by `(aircraft_type, home_base)`. -/
def aggregateFleet (fleet : List Aircraft) : List ((String × String) × ℕ) :=
  fleet.foldl
    (fun counts ac =>
      if ac.available then bumpCount (ac.aircraft_type, ac.home_base) counts else counts)
    []

/-- Embedding of `FrequencyOptimizer.__init__`. -/
def mkOptimizer (routes : List Route) (fleet : List Aircraft)
    (crew_bases : List CrewBase) : Optimizer :=
  { routes := dictOfList (routes.map (fun r => (routeKey r, r)))
    fleet := fleet
    crew_bases := dictOfList (crew_bases.map (fun c => (c.base, c)))
    fleet_by_type_base := aggregateFleet fleet }

/- ====================================================================
   rasm_optimizer.py — FrequencyOptimizer: MILP coefficients
   ==================================================================== -/

/-- Revenue coefficient of a (route, aircraft-type) pair:
`seats * min(0.90, demand / (seats * 2)) * avg_fare`. -/
def revenueCoef (r : Route) (s : AircraftSpec) : ℚ :=
  let expected_lf : ℚ := min 0.90 (r.daily_demand / (s.seats * 2))
  let pax_per_flight : ℚ := s.seats * expected_lf
  pax_per_flight * r.avg_fare

/-- ASM coefficient of a (route, aircraft-type) pair: `seats * distance`. -/
def asmCoef (r : Route) (s : AircraftSpec) : ℚ := s.seats * r.distance_nm

/-- Cost coefficient of a (route, aircraft-type) pair:
`casm(distance) * asm / 100` at the default base CASM. -/
def costCoef (r : Route) (s : AircraftSpec) : ℚ :=
  casmDefault r.distance_nm * asmCoef r s / 100

/- ====================================================================
   rasm_optimizer.py — FrequencyOptimizer: the constraint system handed
   to the solver.  A solver assignment gives an integer frequency to
   every decision variable `freq[route_key, ac_type]`.
   ==================================================================== -/

/-- A solver assignment of the `freq` decision variables, keyed like the
Python dict by route key and aircraft type. -/
def FreqAssign : Type := String → String → ℤ

/-- Variable bounds: every variable is a nonnegative integer bounded by
the max frequency of its route (`lowBound=0, upBound=route.max_frequency`). -/
def BoundsOk (O : Optimizer) (σ : FreqAssign) : Prop :=
  ∀ kr ∈ O.routes, ∀ t ∈ acTypes,
    0 ≤ σ kr.1 t ∧ σ kr.1 t ≤ kr.2.max_frequency

/-- Sum of frequencies of one aircraft type over the routes that
originate at a base, as in constraint family 1. -/
def fleetUseSum (O : Optimizer) (σ : FreqAssign) (t base : String) : ℤ :=
  ((O.routes.filter (fun kr => kr.2.origin = base)).map (fun kr => σ kr.1 t)).sum

/-- Constraint family 1 (`Fleet_{type}_{base}`): for every aggregated
fleet count whose type is a spec-table key, at most `count * 5` flights
of that type from that base.  The code skips the constraint when no
route originates at the base (the sum is then empty and the inequality
holds anyway); for a fleet type outside the spec table the source would
raise a KeyError on the missing decision variable while building the
constraint, so only spec-table types carry constraints here. -/
def FleetOk (O : Optimizer) (σ : FreqAssign) : Prop :=
  ∀ tbn ∈ O.fleet_by_type_base, tbn.1.1 ∈ acTypes →
    fleetUseSum O σ tbn.1.1 tbn.1.2 ≤ (tbn.2 : ℤ) * 5

/-- Sum of frequencies over every (route, type) pair whose route
originates at a base, as in constraint family 2. -/
def crewUseSum (O : Optimizer) (σ : FreqAssign) (base : String) : ℤ :=
  ((O.routes.filter (fun kr => kr.2.origin = base)).map
    (fun kr => (acTypes.map (fun t => σ kr.1 t)).sum)).sum

/-- Constraint family 2 (`Crew_Pilots_{base}`): at most
`(pilots_available * 4) // 2` flights from every crew base. -/
def CrewOk (O : Optimizer) (σ : FreqAssign) : Prop :=
  ∀ bc ∈ O.crew_bases,
    crewUseSum O σ bc.1 ≤ ((bc.2.pilots_available * 4) / 2 : ℕ)

/-- Total frequency of one route over the aircraft types. -/
def routeFreqSum (σ : FreqAssign) (k : String) : ℤ :=
  (acTypes.map (fun t => σ k t)).sum

/-- Constraint family 3 (`MinFreq_{route}`): routes with a positive
contractual minimum fly at least that often. -/
def MinFreqOk (O : Optimizer) (σ : FreqAssign) : Prop :=
  ∀ kr ∈ O.routes, 0 < kr.2.min_frequency →
    (kr.2.min_frequency : ℤ) ≤ routeFreqSum σ kr.1

/-- Scheduled daily seats of one route:
`Σ AIRCRAFT_SPECS[ac]["seats"] * freq[route, ac]`. -/
def dailySeats (σ : FreqAssign) (k : String) : ℚ :=
  (acTypes.map (fun t => (seatsOf t : ℚ) * (σ k t : ℚ))).sum

/-- Constraint family 4 (`DemandCap_{route}`): scheduled seats at most
`daily_demand * 1.2`. -/
def DemandCapOk (O : Optimizer) (σ : FreqAssign) : Prop :=
  ∀ kr ∈ O.routes, dailySeats σ kr.1 ≤ kr.2.daily_demand * 1.2

/-- A feasible assignment of the MILP built by `FrequencyOptimizer.optimize`:
the variable bounds plus the four constraint families. -/
def Feasible (O : Optimizer) (σ : FreqAssign) : Prop :=
  BoundsOk O σ ∧ FleetOk O σ ∧ CrewOk O σ ∧ MinFreqOk O σ ∧ DemandCapOk O σ

/-- The outcome of the abstracted CBC solve: the PuLP status string
(`LpStatus[prob.status]`) and the extracted variable values. -/
structure SolverOutcome where
  status : String
  assign : FreqAssign

/-- A solver oracle honours the MILP contract when an outcome whose
status is Optimal carries an assignment satisfying the bounds and the
constraints that `optimize` constructed. -/
def SolverHonest (O : Optimizer) (out : SolverOutcome) : Prop :=
  out.status = "Optimal" → Feasible O out.assign

/- ====================================================================
   rasm_optimizer.py — FrequencyOptimizer: result extraction
   ==================================================================== -/

/-- The per-route record of `decisions["frequencies"][route_key]`. -/
structure FreqDecision where
  total : ℤ
  by_equipment : List (String × ℤ)
deriving DecidableEq, Repr

/-- The positive-frequency entries of one route, in aircraft-type order.
The Python loop walks `freq.items()` route-major in insertion order, so
grouping the extraction by route is the same computation. -/
def byEquipmentOf (σ : FreqAssign) (k : String) : List (String × ℤ) :=
  acTypes.filterMap (fun t => if 0 < σ k t then some (t, σ k t) else none)

/-- Embedding of the `decisions["frequencies"]` dict built on an optimal
solve: a route appears exactly when some type flies it a positive number
of times, with the accumulated total and the per-equipment breakdown. -/
def extractFrequencies (O : Optimizer) (σ : FreqAssign) : List (String × FreqDecision) :=
  O.routes.filterMap (fun kr =>
    let be := byEquipmentOf σ kr.1
    if be.isEmpty then none
    else some (kr.1, ⟨(be.map Prod.snd).sum, be⟩))

/-- Frequency of one aircraft type on one route as read back from the
returned decisions, missing entries reading as zero. -/
def decidedFreq (dec : List (String × FreqDecision)) (k t : String) : ℤ :=
  ((dec.lookup k).map (fun d => (d.by_equipment.lookup t).getD 0)).getD 0

/-- Total frequency of one route as read back from the returned
decisions, missing routes reading as zero. -/
def decidedTotal (dec : List (String × FreqDecision)) (k : String) : ℤ :=
  ((dec.lookup k).map FreqDecision.total).getD 0

/-- Realized totals recomputed from the coefficient tables over the
positive frequencies, as in the extraction loop.  `coef` is one of the
three coefficient tables. -/
def realizedTotal (O : Optimizer) (σ : FreqAssign)
    (coef : Route → AircraftSpec → ℚ) : ℚ :=
  (O.routes.map (fun kr =>
    (AIRCRAFT_SPECS.map (fun ts =>
      if 0 < σ kr.1 ts.1 then coef kr.2 ts.2 * (σ kr.1 ts.1 : ℚ) else 0)).sum)).sum

/- ====================================================================
   rasm_optimizer.py — FrequencyOptimizer: recommendations and result
   ==================================================================== -/

/-- One row of the top-routes ranking inside the recommendations. -/
structure RouteMetric where
  route : String
  rasm : ℚ
  frequency : ℤ
  distance : ℚ
deriving DecidableEq, Repr

/-- A recommendation entry; the constructor is the `type` tag of the
Python dict. -/
inductive Recommendation where
  | error (message : String)
  | summary (rasm_cents casm_cents spread_cents profit_margin_pct daily_profit : ℚ)
  | top_routes (routes : List RouteMetric)
  | stage_length (short_haul_avg_rasm long_haul_avg_rasm : ℚ) (insight : String)
deriving DecidableEq, Repr

/-- Arithmetic mean of a list of rationals, the model of `np.mean`. -/
def listMean (l : List ℚ) : ℚ := l.sum / l.length

/-- The per-route metrics of `_generate_recommendations`, computed from
the decisions with a flat 0.85 load-factor revenue assumption. -/
def routeMetricsOf (O : Optimizer) (dec : List (String × FreqDecision)) :
    List RouteMetric :=
  dec.filterMap (fun kd =>
    match O.routes.lookup kd.1 with
    | none => none
    | some r =>
        let route_asm : ℚ :=
          (kd.2.by_equipment.map (fun ac => (seatsOf ac.1 : ℚ) * r.distance_nm * ac.2)).sum
        let route_rev : ℚ :=
          (kd.2.by_equipment.map (fun ac => (seatsOf ac.1 : ℚ) * 0.85 * r.avg_fare * ac.2)).sum
        let route_rasm : ℚ := if route_asm > 0 then route_rev / route_asm * 100 else 0
        some ⟨kd.1, route_rasm, kd.2.total, r.distance_nm⟩)

/-- Embedding of `FrequencyOptimizer._generate_recommendations`. -/
def generateRecommendations (O : Optimizer) (dec : List (String × FreqDecision))
    (revenue cost asm : ℚ) : List Recommendation :=
  let rasm : ℚ := if asm > 0 then revenue / asm * 100 else 0
  let casm : ℚ := if asm > 0 then cost / asm * 100 else 0
  let profit_margin : ℚ := if revenue > 0 then (revenue - cost) / revenue * 100 else 0
  let summaryRec := Recommendation.summary (roundTo 2 rasm) (roundTo 2 casm)
    (roundTo 2 (rasm - casm)) (roundTo 1 profit_margin) (roundTo 0 (revenue - cost))
  let route_metrics := routeMetricsOf O dec
  if route_metrics.isEmpty then [summaryRec]
  else
    let ranked := sortDescBy RouteMetric.rasm route_metrics
    let topRec := Recommendation.top_routes (ranked.take 5)
    let short_haul := ranked.filter (fun r => r.distance < 500)
    let long_haul := ranked.filter (fun r => r.distance ≥ 1000)
    if short_haul.isEmpty ∨ long_haul.isEmpty then [summaryRec, topRec]
    else
      let avg_short := listMean (short_haul.map RouteMetric.rasm)
      let avg_long := listMean (long_haul.map RouteMetric.rasm)
      [summaryRec, topRec,
       Recommendation.stage_length (roundTo 2 avg_short) (roundTo 2 avg_long)
         (if avg_short > avg_long then "Short-haul premium" else "Long-haul advantage")]

/-- Embedding of the `OptimizationResult` dataclass.  The Python field
`decisions` is a dict `{"frequencies": ..., "equipment": {}}` on success
and `{}` on failure; the model keeps the frequencies mapping, which is
empty on failure.  `solve_time_seconds` is wall-clock time and is not
modelled. -/
structure OptimizationResult where
  status : String
  objective_value : ℚ
  total_revenue : ℚ
  total_asm : ℚ
  total_cost : ℚ
  decisions : List (String × FreqDecision)
  constraints_binding : List String
  recommendations : List Recommendation

/-- Embedding of `FrequencyOptimizer.optimize`, parameterized by the
outcome of the abstracted CBC solve.  The `objective` argument selects
the objective handed to the solver and does not affect extraction. -/
def optimize (O : Optimizer) (objective : String) (out : SolverOutcome) :
    OptimizationResult :=
  if out.status ≠ "Optimal" then
    { status := out.status
      objective_value := 0
      total_revenue := 0
      total_asm := 0
      total_cost := 0
      decisions := []
      constraints_binding := []
      recommendations := [.error ("Optimization failed: " ++ out.status)] }
  else
    let σ := out.assign
    let dec := extractFrequencies O σ
    let total_revenue := realizedTotal O σ revenueCoef
    let total_cost := realizedTotal O σ costCoef
    let total_asm := realizedTotal O σ asmCoef
    let rasm : ℚ := if total_asm > 0 then total_revenue / total_asm * 100 else 0
    { status := "Optimal"
      objective_value := rasm
      total_revenue := total_revenue
      total_asm := total_asm
      total_cost := total_cost
      decisions := dec
      constraints_binding := []
      recommendations := generateRecommendations O dec total_revenue total_cost total_asm }

/- ====================================================================
   data_parser.py — airport categories and the geography prior
   ==================================================================== -/

/-- The `cruise_ports` list of `AIRPORT_CATEGORIES`. -/
def cruisePortsList : List String :=
  ["MIA", "FLL", "TPA", "SJU", "CZM", "NAS", "GCM", "SXM",
   "POS", "BGI", "AUA", "CUR", "STT", "STX", "SAV", "CHS",
   "JAX", "MSY", "HOU", "SEA", "YVR", "LAX", "SAN", "NYC"]

/-- The `beach_resort` list of `AIRPORT_CATEGORIES`. -/
def beachResortList : List String :=
  ["CUN", "PUJ", "MBJ", "SJO", "LIR", "PVR", "SJD", "GCM",
   "AUA", "SXM", "PLS", "EYW", "RSW", "PBI", "HNL", "OGG",
   "KOA", "LIH", "SJU", "STT", "STX", "NAS", "FPO"]

/-- The `theme_park` list of `AIRPORT_CATEGORIES`. -/
def themeParkList : List String := ["MCO", "SAN", "LAX", "ANA"]

/-- The `casino` list of `AIRPORT_CATEGORIES`. -/
def casinoList : List String := ["LAS", "RNO", "ATL", "BIL"]

/-- The `business_hub` list of `AIRPORT_CATEGORIES`. -/
def businessHubList : List String :=
  ["JFK", "LGA", "EWR", "ORD", "LAX", "SFO", "DFW", "IAH",
   "ATL", "BOS", "DCA", "IAD", "SEA", "DEN", "PHX", "CLT",
   "MIA", "MSP", "DTW", "PHL"]

/-- The `secondary` list of `AIRPORT_CATEGORIES`. -/
def secondaryList : List String :=
  ["ABQ", "ALB", "AUS", "BDL", "BHM", "BNA", "BUF", "BWI",
   "CLE", "CMH", "CVG", "DAY", "DSM", "ELP", "GRR", "GSO",
   "IND", "JAX", "MCI", "MEM", "MKE", "OKC", "OMA", "ONT",
   "PIT", "PVD", "RDU", "RIC", "ROC", "SAT", "SDF", "SJC",
   "SMF", "SNA", "STL", "SYR", "TUL", "TUS"]

/-- The `AIRPORT_CATEGORIES` dict, in its iteration order. -/
def AIRPORT_CATEGORIES : List (String × List String) :=
  [("cruise_ports", cruisePortsList),
   ("beach_resort", beachResortList),
   ("theme_park", themeParkList),
   ("casino", casinoList),
   ("business_hub", businessHubList),
   ("secondary", secondaryList)]

/-- Model of Python `str.upper()` over the character list of a string
(the built-in `String.toUpper` does not reduce in the kernel). -/
def upperStr (s : String) : String := ⟨s.data.map Char.toUpper⟩

/-- Model of Python `str.strip()` over the character list of a string. -/
def stripStr (s : String) : String :=
  ⟨((s.data.dropWhile Char.isWhitespace).reverse.dropWhile Char.isWhitespace).reverse⟩

/-- Embedding of `categorize_airport`: the categories whose airport list
holds the upper-cased, stripped code, or `["other"]` when none does. -/
def categorizeAirport (iata_code : String) : List String :=
  let code := stripStr (upperStr iata_code)
  let categories :=
    AIRPORT_CATEGORIES.filterMap (fun ca => if code ∈ ca.2 then some ca.1 else none)
  if categories.isEmpty then ["other"] else categories

/-- A segment mix: the fixed five-key dict mapping segment names to
weights carried through the whole decomposition pipeline. -/
structure SegmentMix where
  vfr : ℚ
  leisure : ℚ
  cruise : ℚ
  business : ℚ
  other : ℚ
deriving DecidableEq, Repr

/-- Sum of the five weights of a segment mix. -/
def SegmentMix.total (p : SegmentMix) : ℚ :=
  p.vfr + p.leisure + p.cruise + p.business + p.other

/-- Every weight of the mix is nonnegative. -/
def SegmentMix.Nonneg (p : SegmentMix) : Prop :=
  0 ≤ p.vfr ∧ 0 ≤ p.leisure ∧ 0 ≤ p.cruise ∧ 0 ≤ p.business ∧ 0 ≤ p.other

instance (p : SegmentMix) : Decidable p.Nonneg := by
  unfold SegmentMix.Nonneg; infer_instance

/-- The dict comprehension `{k: round(v/total, 4)}` closing every
normalization, as a total function on mixes. -/
def normalizeMixRound4 (p : SegmentMix) : SegmentMix :=
  { vfr := round4 (p.vfr / p.total)
    leisure := round4 (p.leisure / p.total)
    cruise := round4 (p.cruise / p.total)
    business := round4 (p.business / p.total)
    other := round4 (p.other / p.total) }

/-- The shared normalization step that closes every refinement stage.
A zero total is the model of the Python `ZeroDivisionError` the dict
comprehension would raise. -/
def normalizeRound4 (p : SegmentMix) : Except String SegmentMix :=
  if p.total = 0 then .error "ZeroDivisionError: float division by zero"
  else .ok (normalizeMixRound4 p)

/-- The category-override sequence of `infer_route_segment_profile` as a
function of the two category lists, before normalization. -/
def geoOverrides (origin_cats dest_cats : List String) : SegmentMix :=
  let p0 : SegmentMix := ⟨0.25, 0.25, 0.0, 0.25, 0.25⟩
  let p1 := if "cruise_ports" ∈ dest_cats then
      { p0 with cruise := 0.20, leisure := p0.leisure - 0.10, other := p0.other - 0.10 }
    else p0
  let p2 := if "beach_resort" ∈ dest_cats then
      { p1 with leisure := 0.50, vfr := 0.30, business := 0.10,
                cruise := if "cruise_ports" ∈ dest_cats then 0.10 else 0.0,
                other := 0.0 }
    else p1
  let p3 := if "theme_park" ∈ dest_cats then
      { p2 with leisure := 0.45, vfr := 0.40, business := 0.10, cruise := 0.0, other := 0.05 }
    else p2
  let p4 := if "casino" ∈ dest_cats then
      { p3 with leisure := 0.55, vfr := 0.20, business := 0.15, cruise := 0.0, other := 0.10 }
    else p3
  let p5 := if "business_hub" ∈ origin_cats ∧ "business_hub" ∈ dest_cats then
      { p4 with business := 0.35, vfr := 0.30, leisure := 0.25, cruise := 0.0, other := 0.10 }
    else p4
  let p6 := if "secondary" ∈ origin_cats ∨ "secondary" ∈ dest_cats then
      { p5 with vfr := 0.45, leisure := 0.30, business := 0.15, cruise := 0.0, other := 0.10 }
    else p5
  p6

/-- The geography prior as a function of the two category lists: the
override sequence followed by the closing normalization.  The
pre-normalization total is positive in every branch, so the division
never hits zero and the function is total. -/
def inferProfileFromCats (origin_cats dest_cats : List String) : SegmentMix :=
  normalizeMixRound4 (geoOverrides origin_cats dest_cats)

/-- Embedding of `infer_route_segment_profile`: the geography prior of a
directional airport pair. -/
def inferRouteSegmentProfile (origin destination : String) : SegmentMix :=
  inferProfileFromCats (categorizeAirport origin) (categorizeAirport destination)

/- ====================================================================
   demand_decomposition.py — the refinement stages

   A route DataFrame slice is modelled by the canonical columns the
   three refinement stages read: presence flags for the mapped columns
   and one record per row.  Arithmetic is exact; the only place the
   Python pipeline produces NaN with nonnegative passenger data is a
   zero passenger total, where every NaN comparison is False and the
   stage falls through to the closing normalization.
   ==================================================================== -/

/-- One row of the filtered route DataFrame. -/
structure FrameRow where
  dow : ℤ
  const_local_pax : ℚ
  spill_rate : ℚ
  const_fare : ℚ
  unc_fare : ℚ
deriving DecidableEq, Repr

/-- The filtered route DataFrame as seen by the refinement stages. -/
structure RouteFrame where
  hasDow : Bool
  hasConstLocalPax : Bool
  hasSpillRate : Bool
  hasConstFare : Bool
  hasUncFare : Bool
  rows : List FrameRow
deriving DecidableEq, Repr

/-- Passenger total of one day group:
`route_df.groupby(dow)[const_local_pax].sum()` at key `d`. -/
def paxOnDay (f : RouteFrame) (d : ℤ) : ℚ :=
  ((f.rows.filter (fun r => r.dow = d)).map FrameRow.const_local_pax).sum

/-- Total passengers over all rows, the sum of the grouped series. -/
def paxTotal (f : RouteFrame) : ℚ :=
  (f.rows.map FrameRow.const_local_pax).sum

/-- The distinct day keys of the grouped series. -/
def daysPresent (f : RouteFrame) : List ℤ :=
  (f.rows.map FrameRow.dow).dedup

/-- Maximum of a nonempty list of rationals, the model of Python `max`;
the empty case is guarded by the caller. -/
def listMax (l : List ℚ) : ℚ :=
  match l with
  | [] => 0
  | x :: xs => xs.foldl max x

/-- Sum of the values of the normalized day-of-week dict,
`sum(dow_dist.values())`. -/
def distValuesSum (f : RouteFrame) : ℚ :=
  ((daysPresent f).map (fun d => paxOnDay f d / paxTotal f)).sum

/-- Largest value of the normalized day-of-week dict,
`max(dow_dist.values())`. -/
def distValuesMax (f : RouteFrame) : ℚ :=
  listMax ((daysPresent f).map (fun d => paxOnDay f d / paxTotal f))

/-- The weekend share `sum(dow_dist.get(d, 0) for d in [5, 6, 7]) /
max(sum(dow_dist.values()), 0.001)`. -/
def weekendShare (f : RouteFrame) : ℚ :=
  (paxOnDay f 5 / paxTotal f + paxOnDay f 6 / paxTotal f + paxOnDay f 7 / paxTotal f) /
    max (distValuesSum f) 0.001

/-- The Saturday-to-peak-day share `dow_dist.get(6, 0) /
max(max(dow_dist.values()), 0.001)`. -/
def satPeakShare (f : RouteFrame) : ℚ :=
  (paxOnDay f 6 / paxTotal f) / max (distValuesMax f) 0.001

/-- The weekday share `sum(dow_dist.get(d, 0) for d in [1, 2, 3, 4]) /
max(sum(dow_dist.values()), 0.001)`. -/
def weekdayShare (f : RouteFrame) : ℚ :=
  (paxOnDay f 1 / paxTotal f + paxOnDay f 2 / paxTotal f +
   paxOnDay f 3 / paxTotal f + paxOnDay f 4 / paxTotal f) /
    max (distValuesSum f) 0.001

/-- Embedding of `DemandDecomposer._refine_by_dow_pattern`.

Errors model the exceptions of the source: selecting the passenger
column out of the groupby raises `KeyError` when that column is absent
(the guard only checks the day-of-week column), and `max` over the
empty day dict raises `ValueError`.  A zero passenger total is the NaN
path: every comparison is False and the profile reaches the closing
normalization unchanged.

The source also computes Pearson fit scores of the day pattern against
the five canonical `DOW_PATTERNS` shapes (`segment_fits`); that value is
never read afterwards, so the returned mix is a function of the three
shares above alone, which is the point of claim C9.

The weekend block: a weekend share above 0.5 boosts vfr (capped at 1.0)
and shrinks business. -/
def dowWeekendAdjust (weekend_share : ℚ) (p : SegmentMix) : SegmentMix :=
  if weekend_share > 0.5 then
    { p with vfr := min 1.0 (p.vfr * 1.2), business := p.business * 0.8 }
  else p

/-- The Saturday-spike block of `_refine_by_dow_pattern`: a Saturday
share above 0.2 of the peak day boosts cruise when it is present. -/
def dowSaturdayAdjust (sat_share : ℚ) (p : SegmentMix) : SegmentMix :=
  if sat_share > 0.2 ∧ p.cruise > 0 then
    { p with cruise := min 0.4 (p.cruise * 1.5) }
  else p

/-- The weekday block of `_refine_by_dow_pattern`: a weekday share above
0.6 boosts business (capped at 0.5) and shrinks leisure. -/
def dowWeekdayAdjust (weekday_share : ℚ) (p : SegmentMix) : SegmentMix :=
  if weekday_share > 0.6 then
    { p with business := min 0.5 (p.business * 1.3), leisure := p.leisure * 0.9 }
  else p

/-- Embedding of `DemandDecomposer._refine_by_dow_pattern` (continued):
the guards, the three sequential adjustment blocks above, and the
closing normalization. -/
def refineByDowPattern (f : RouteFrame) (base_profile : SegmentMix) :
    Except String SegmentMix :=
  if f.hasDow = false then .ok base_profile
  else if f.hasConstLocalPax = false then
    .error "KeyError: Constrained Local Pax"
  else if f.rows.isEmpty then
    .error "ValueError: max() arg is an empty sequence"
  else if paxTotal f = 0 then normalizeRound4 base_profile
  else
    normalizeRound4
      (dowWeekdayAdjust (weekdayShare f)
        (dowSaturdayAdjust (satPeakShare f)
          (dowWeekendAdjust (weekendShare f) base_profile)))

/-- The adjustment block of `_refine_by_spill_pattern`: a mean spill
rate above 0.1 boosts the must-travel segments, one below 0.02 boosts
leisure. -/
def spillAdjust (avg_spill : ℚ) (p : SegmentMix) : SegmentMix :=
  if avg_spill > 0.1 then
    { p with vfr := min 1.0 (p.vfr * 1.1), cruise := min 0.5 (p.cruise * 1.15) }
  else if avg_spill < 0.02 then
    { p with leisure := min 1.0 (p.leisure * 1.1) }
  else p

/-- Embedding of `DemandDecomposer._refine_by_spill_pattern`.  An empty
frame has a NaN mean spill rate, so neither branch fires. -/
def refineBySpillPattern (f : RouteFrame) (profile : SegmentMix) :
    Except String SegmentMix :=
  if f.hasSpillRate = false then .ok profile
  else if f.rows.isEmpty then normalizeRound4 profile
  else
    normalizeRound4
      (spillAdjust ((f.rows.map FrameRow.spill_rate).sum / f.rows.length) profile)

/-- The adjustment block of `_refine_by_fare_sensitivity`: a fare
premium above 0.05 boosts the price-insensitive segments and shrinks
leisure, one below -0.02 boosts leisure and shrinks business. -/
def fareAdjust (fare_premium : ℚ) (p : SegmentMix) : SegmentMix :=
  if fare_premium > 0.05 then
    { p with business := min 0.5 (p.business * 1.15),
             vfr := min 0.6 (p.vfr * 1.1),
             leisure := p.leisure * 0.85 }
  else if fare_premium < -0.02 then
    { p with leisure := min 0.7 (p.leisure * 1.2), business := p.business * 0.9 }
  else p

/-- Embedding of `DemandDecomposer._refine_by_fare_sensitivity`.  An
empty frame has NaN mean fares, so neither branch fires. -/
def refineByFareSensitivity (f : RouteFrame) (profile : SegmentMix) :
    Except String SegmentMix :=
  if f.hasConstFare = false ∨ f.hasUncFare = false then .ok profile
  else if f.rows.isEmpty then normalizeRound4 profile
  else
    let avg_const_fare := (f.rows.map FrameRow.const_fare).sum / f.rows.length
    let avg_unc_fare := (f.rows.map FrameRow.unc_fare).sum / f.rows.length
    normalizeRound4
      (fareAdjust ((avg_const_fare - avg_unc_fare) / max avg_unc_fare 1) profile)

/- ====================================================================
   segment_inference.py — SegmentSignalAggregator.adjust_segment_mix
   ==================================================================== -/

/-- Name of one of the five canonical segments, the value of the
`segment` field of a signal record.  The signals built by
`get_all_signals` always carry one of the five canonical names. -/
inductive Segment where
  | vfr | leisure | cruise | business | other
deriving DecidableEq, Repr

/-- Read the weight of a named segment from a mix. -/
def SegmentMix.get : SegmentMix → Segment → ℚ
  | p, .vfr => p.vfr
  | p, .leisure => p.leisure
  | p, .cruise => p.cruise
  | p, .business => p.business
  | p, .other => p.other

/-- Write the weight of a named segment in a mix. -/
def SegmentMix.set : SegmentMix → Segment → ℚ → SegmentMix
  | p, .vfr, v => { p with vfr := v }
  | p, .leisure, v => { p with leisure := v }
  | p, .cruise, v => { p with cruise := v }
  | p, .business, v => { p with business := v }
  | p, .other, v => { p with other := v }

/-- Subtract `amt` from every segment other than `seg`, flooring at 0:
the seasonality redistribution loop. -/
def SegmentMix.drainOthers (p : SegmentMix) (seg : Segment) (amt : ℚ) : SegmentMix :=
  { vfr := if seg = .vfr then p.vfr else max 0 (p.vfr - amt)
    leisure := if seg = .leisure then p.leisure else max 0 (p.leisure - amt)
    cruise := if seg = .cruise then p.cruise else max 0 (p.cruise - amt)
    business := if seg = .business then p.business else max 0 (p.business - amt)
    other := if seg = .other then p.other else max 0 (p.other - amt) }

/-- The fields of one signal record that `adjust_segment_mix` reads:
`signal_strength` and, for seasonality signals, the target `segment`
(defaulted to vfr by the source when absent). -/
structure SignalData where
  signal_strength : ℚ
  segment : Segment
deriving DecidableEq, Repr

/-- One iteration of the signal loop of `adjust_segment_mix`, applied to
the running mix.  Cruise, weather and trends adjust only when the
strength exceeds 0.3; seasonality adjusts at any strength. -/
def applySignal (adjusted : SegmentMix) (sig : String × SignalData) : SegmentMix :=
  let strength := sig.2.signal_strength
  if sig.1 = "cruise" ∧ strength > 0.3 then
    let boost := strength * 0.15
    { adjusted with cruise := min 0.5 (adjusted.cruise + boost),
                    leisure := max 0 (adjusted.leisure - boost * 0.5),
                    other := max 0 (adjusted.other - boost * 0.5) }
  else if sig.1 = "weather" ∧ strength > 0.3 then
    let boost := strength * 0.1
    { adjusted with leisure := min 0.6 (adjusted.leisure + boost),
                    business := max 0 (adjusted.business - boost * 0.5),
                    other := max 0 (adjusted.other - boost * 0.5) }
  else if sig.1 = "seasonality" then
    let segment := sig.2.segment
    let boost := strength * 0.1
    (adjusted.set segment (min 0.6 (adjusted.get segment + boost))).drainOthers
      segment (boost / 4)
  else if sig.1 = "trends" ∧ strength > 0.3 then
    let boost := strength * 0.12
    { adjusted with leisure := min 0.6 (adjusted.leisure + boost),
                    business := max 0 (adjusted.business - boost * 0.3),
                    other := max 0 (adjusted.other - boost * 0.3) }
  else adjusted

/-- Embedding of `SegmentSignalAggregator.adjust_segment_mix`.  The
`signals` argument is the inner `signals` map of the aggregator output,
as a list in dict-iteration order.  The result is renormalized only when
the adjusted total is positive. -/
def adjustSegmentMix (base_mix : SegmentMix) (signals : List (String × SignalData)) :
    SegmentMix :=
  let adjusted := signals.foldl applySignal base_mix
  let total := adjusted.total
  if total > 0 then
    { vfr := round4 (adjusted.vfr / total)
      leisure := round4 (adjusted.leisure / total)
      cruise := round4 (adjusted.cruise / total)
      business := round4 (adjusted.business / total)
      other := round4 (adjusted.other / total) }
  else adjusted

/-- Modelled from the spec wording of claim C7: one signal application
where every signal present (strength above 0) is applied, with the same
coefficients, caps and redistribution splits as the source.  This is the
comparison definition for the refinement stated by the claim; it differs
from `applySignal` only in the absence of the 0.3 strength threshold on
the cruise, weather and trends branches. -/
def applySignalClaimed (adjusted : SegmentMix) (sig : String × SignalData) : SegmentMix :=
  let strength := sig.2.signal_strength
  if sig.1 = "cruise" ∧ strength > 0 then
    let boost := strength * 0.15
    { adjusted with cruise := min 0.5 (adjusted.cruise + boost),
                    leisure := max 0 (adjusted.leisure - boost * 0.5),
                    other := max 0 (adjusted.other - boost * 0.5) }
  else if sig.1 = "weather" ∧ strength > 0 then
    let boost := strength * 0.1
    { adjusted with leisure := min 0.6 (adjusted.leisure + boost),
                    business := max 0 (adjusted.business - boost * 0.5),
                    other := max 0 (adjusted.other - boost * 0.5) }
  else if sig.1 = "seasonality" ∧ strength > 0 then
    let segment := sig.2.segment
    let boost := strength * 0.1
    (adjusted.set segment (min 0.6 (adjusted.get segment + boost))).drainOthers
      segment (boost / 4)
  else if sig.1 = "trends" ∧ strength > 0 then
    let boost := strength * 0.12
    { adjusted with leisure := min 0.6 (adjusted.leisure + boost),
                    business := max 0 (adjusted.business - boost * 0.3),
                    other := max 0 (adjusted.other - boost * 0.3) }
  else adjusted

/-- Modelled from the spec wording of claim C7: `adjust_segment_mix` as
the claim states it, applying every active signal. -/
def adjustSegmentMixClaimed (base_mix : SegmentMix)
    (signals : List (String × SignalData)) : SegmentMix :=
  let adjusted := signals.foldl applySignalClaimed base_mix
  let total := adjusted.total
  if total > 0 then
    { vfr := round4 (adjusted.vfr / total)
      leisure := round4 (adjusted.leisure / total)
      cruise := round4 (adjusted.cruise / total)
      business := round4 (adjusted.business / total)
      other := round4 (adjusted.other / total) }
  else adjusted

/- ====================================================================
   Comparison definition for claim C10 and concrete fixtures used by
   the counterexamples and witnesses below.
   ==================================================================== -/

/-- The alternative enumeration without the current-state skip: when the
current equipment string matches no spec key, the skip guard of
`evaluate_options` never fires and the alternatives are exactly this
list over the full spec set. -/
def swapAlternativesNoSkip (route : Route) (current_eq : String) (current_freq : ℤ) :
    List SwapOption :=
  AIRCRAFT_SPECS.flatMap (fun ts =>
    ([-1, 0, 1] : List ℤ).filterMap (fun freq_delta =>
      let new_freq := current_freq + freq_delta
      if new_freq < 1 ∨ new_freq > route.max_frequency then none
      else some (alternativeSwapOption route current_eq current_freq ts.1 ts.2 freq_delta)))

/-- A flat five-way segment mix. -/
def flatFifths : SegmentMix := ⟨0.2, 0.2, 0.2, 0.2, 0.2⟩

/-- The flat starting profile of the geography prior. -/
def flatQuarters : SegmentMix := ⟨0.25, 0.25, 0.0, 0.25, 0.25⟩

/-- A frame row carrying only a day of week and a passenger count. -/
def dowRow (d : ℤ) (pax : ℚ) : FrameRow := ⟨d, pax, 0, 0, 0⟩

/-- Counterexample frame for claim C4: day-of-week and passenger columns
present, Saturday spike (satPeakShare = 2/3 > 0.2) without a weekend or
weekday majority (weekendShare = 9/20, weekdayShare = 11/20). -/
def c4Frame : RouteFrame :=
  ⟨true, true, false, false, false,
   [dowRow 1 30, dowRow 2 25, dowRow 6 20, dowRow 7 25]⟩

/-- The mix returned by the day-of-week stage on `c4Frame` applied to
the geography prior of route JFK-MSY. -/
def c4Mix : SegmentMix := ⟨0.2273, 0.1364, 0.2727, 0.2273, 0.1364⟩

/-- Failing frame for claim C5: the day-of-week column is present but
the constrained-local-pax column is absent. -/
def c5Frame : RouteFrame :=
  ⟨true, false, false, false, false, [dowRow 1 10]⟩

/-- First witness frame for claim C9: weekendShare 7/10,
satPeakShare 2/3, weekdayShare 3/10. -/
def c9FrameA : RouteFrame :=
  ⟨true, true, false, false, false,
   [dowRow 1 30, dowRow 5 30, dowRow 6 20, dowRow 7 20]⟩

/-- Second witness frame for claim C9: a different weekly shape (and so
a different correlation with every canonical pattern) with the same
three shares as `c9FrameA`. -/
def c9FrameB : RouteFrame :=
  ⟨true, true, false, false, false,
   [dowRow 3 30, dowRow 5 25, dowRow 6 20, dowRow 7 25]⟩

/-- A one-route, one-aircraft, one-base optimizer instance used by the
optimizer witnesses. -/
def witnessOptimizer : Optimizer :=
  mkOptimizer
    [{ origin := "DTW", destination := "MCO", distance_nm := 950,
       daily_demand := 300, avg_fare := 120, competitors := 0,
       min_frequency := 0, max_frequency := 4 }]
    [{ registration := "N901NK", aircraft_type := "A320neo", seats := 182,
       home_base := "DTW", available := true }]
    [{ base := "DTW", pilots_available := 20, fas_available := 40 }]

/-- A solver outcome reporting Optimal with one daily A320neo flight on
the single route of `witnessOptimizer`. -/
def witnessOutcome : SolverOutcome :=
  ⟨"Optimal", fun k t => if k = "DTW-MCO" ∧ t = "A320neo" then 1 else 0⟩

/-- A non-optimal solver outcome. -/
def infeasibleOutcome : SolverOutcome := ⟨"Infeasible", fun _ _ => 0⟩

/-- A cruise signal of strength 0.2 (a day-after-departure arrival), as
`get_all_signals` emits it: present because the strength is positive. -/
def weakCruiseSignals : List (String × SignalData) := [("cruise", ⟨0.2, .cruise⟩)]

/-- A weather signal of strength 0.4. -/
def strongWeatherSignals : List (String × SignalData) := [("weather", ⟨0.4, .leisure⟩)]

/-- The witness route for the equipment-swap claims. -/
def witnessRoute : Route :=
  { origin := "DTW", destination := "MCO", distance_nm := 950,
    daily_demand := 300, avg_fare := 120, competitors := 0,
    min_frequency := 0, max_frequency := 4 }

/-- A simple weekday-heavy frame with both day-of-week and passenger
columns, used by stage witnesses. -/
def weekdayFrame : RouteFrame :=
  ⟨true, true, false, false, false, [dowRow 1 40, dowRow 2 40, dowRow 6 20]⟩

/- ====================================================================
   Theorems
   ==================================================================== -/

/-- C3: `calculate_stage_length_casm` returns 15.0 for every distance at
most 0 and `base_casm + 1000/distance` for every positive distance; on
positive distances it is strictly decreasing in the distance and strictly
above `base_casm`. -/
theorem stage_length_casm_spec (b d d1 d2 : ℚ) :
    (d ≤ 0 → calculate_stage_length_casm d b = 15.0) ∧
    (0 < d → calculate_stage_length_casm d b = b + 1000 / d) ∧
    (0 < d1 → d1 < d2 →
      calculate_stage_length_casm d2 b < calculate_stage_length_casm d1 b) ∧
    (0 < d → b < calculate_stage_length_casm d b) := by
  refine ⟨fun h => ?_, fun h => ?_, fun h1 h12 => ?_, fun h => ?_⟩
  · simp [calculate_stage_length_casm, h]
  · simp [calculate_stage_length_casm, not_le.mpr h]
  · have h2 : (0 : ℚ) < d2 := h1.trans h12
    simp only [calculate_stage_length_casm, not_le.mpr h1, not_le.mpr h2, if_false]
    have : 1000 / d2 < 1000 / d1 := by
      exact div_lt_div_of_pos_left (by norm_num) h1 h12
    linarith
  · simp only [calculate_stage_length_casm, not_le.mpr h, if_false]
    have : 0 < 1000 / d := by positivity
    linarith

/-- Witness for C3 at distances -3, 500, 1000 and base CASM 10.5. -/
theorem stage_length_casm_spec_witness :
    calculate_stage_length_casm (-3) 10.5 = 15.0 ∧
    calculate_stage_length_casm 500 10.5 = 10.5 + 1000 / 500 ∧
    calculate_stage_length_casm 1000 10.5 < calculate_stage_length_casm 500 10.5 ∧
    10.5 < calculate_stage_length_casm 500 10.5 :=
  ⟨(stage_length_casm_spec 10.5 (-3) 1 2).1 (by norm_num),
   (stage_length_casm_spec 10.5 500 1 2).2.1 (by norm_num),
   (stage_length_casm_spec 10.5 1 500 1000).2.2.1 (by norm_num) (by norm_num),
   (stage_length_casm_spec 10.5 500 1 2).2.2.2 (by norm_num)⟩

/-- C6: the geography prior of route JFK-CUN.  CUN is categorized
beach_resort only and JFK is a business hub, so the beach-resort
override sets leisure 0.50, vfr 0.30, business 0.10, cruise 0 (CUN is
not also a cruise port) and other 0; the returned mix is that override
normalized by its total 0.90 and rounded to 4 decimals, so leisure
0.5556 and vfr 0.3333, summing to exactly 1. -/
theorem infer_profile_jfk_cun :
    categorizeAirport "CUN" = ["beach_resort"] ∧
    categorizeAirport "JFK" = ["business_hub"] ∧
    inferRouteSegmentProfile "JFK" "CUN" = ⟨0.3333, 0.5556, 0, 0.1111, 0⟩ ∧
    (inferRouteSegmentProfile "JFK" "CUN").leisure = round4 (0.50 / 0.90) ∧
    (inferRouteSegmentProfile "JFK" "CUN").vfr = round4 (0.30 / 0.90) ∧
    (inferRouteSegmentProfile "JFK" "CUN").total = 1 := by
  have hc : categorizeAirport "CUN" = ["beach_resort"] := by decide
  have hj : categorizeAirport "JFK" = ["business_hub"] := by decide
  have hmain : inferRouteSegmentProfile "JFK" "CUN" = ⟨0.3333, 0.5556, 0, 0.1111, 0⟩ := by
    rw [inferRouteSegmentProfile, hc, hj]
    simp only [inferProfileFromCats, geoOverrides,
      eq_false (by decide : ¬ ("cruise_ports" ∈ (["beach_resort"] : List String))),
      eq_true (by decide : ("beach_resort" ∈ (["beach_resort"] : List String))),
      eq_false (by decide : ¬ ("theme_park" ∈ (["beach_resort"] : List String))),
      eq_false (by decide : ¬ ("casino" ∈ (["beach_resort"] : List String))),
      eq_true (by decide : ("business_hub" ∈ (["business_hub"] : List String))),
      eq_false (by decide : ¬ ("business_hub" ∈ (["beach_resort"] : List String))),
      eq_false (by decide : ¬ ("secondary" ∈ (["business_hub"] : List String))),
      eq_false (by decide : ¬ ("secondary" ∈ (["beach_resort"] : List String))),
      if_true, if_false, and_true, true_and, and_false, false_and, or_false, false_or]
    norm_num [SegmentMix.total, round4, roundTo, round_eq, SegmentMix.mk.injEq,
      normalizeMixRound4]
  refine ⟨hc, hj, hmain, ?_, ?_, ?_⟩
  · rw [hmain]; norm_num [round4, roundTo, round_eq]
  · rw [hmain]; norm_num [round4, roundTo, round_eq]
  · rw [hmain]; norm_num [SegmentMix.total]

/-- C2: on every non-Optimal solver status, `optimize` returns normally
with that status string surfaced verbatim, an empty decisions mapping,
zero objective value, revenue, ASM and cost, and exactly one
recommendation entry, of type error. -/
theorem optimize_non_optimal (O : Optimizer) (objective : String)
    (out : SolverOutcome) (h : out.status ≠ "Optimal") :
    (optimize O objective out).status = out.status ∧
    (optimize O objective out).decisions = [] ∧
    (optimize O objective out).objective_value = 0 ∧
    (optimize O objective out).total_revenue = 0 ∧
    (optimize O objective out).total_asm = 0 ∧
    (optimize O objective out).total_cost = 0 ∧
    (optimize O objective out).recommendations =
      [Recommendation.error ("Optimization failed: " ++ out.status)] ∧
    (optimize O objective out).recommendations.length = 1 := by
  simp [optimize, h]

/-- Witness for C2 at a concrete Infeasible outcome. -/
theorem optimize_non_optimal_witness :
    infeasibleOutcome.status ≠ "Optimal" ∧
    (optimize witnessOptimizer "rasm" infeasibleOutcome).status = "Infeasible" ∧
    (optimize witnessOptimizer "rasm" infeasibleOutcome).decisions = [] ∧
    (optimize witnessOptimizer "rasm" infeasibleOutcome).recommendations =
      [Recommendation.error "Optimization failed: Infeasible"] := by
  have h : infeasibleOutcome.status ≠ "Optimal" := by decide
  have hm := optimize_non_optimal witnessOptimizer "rasm" infeasibleOutcome h
  exact ⟨h, hm.1, hm.2.1, hm.2.2.2.2.2.2.1⟩

/-- C5: evaluation of the day-of-week refinement at a frame that has the
day-of-week column but lacks the constrained-local-pax column.  The
stage guards only the day-of-week column, so the groupby column
selection raises a KeyError instead of returning the profile unchanged:
the code contradicts the no-op pass-through the specification promises
for every missing-column combination. -/
theorem refine_dow_missing_pax_raises :
    refineByDowPattern c5Frame flatQuarters = .error "KeyError: Constrained Local Pax" ∧
    refineByDowPattern { c5Frame with hasDow := false } flatQuarters = .ok flatQuarters ∧
    refineBySpillPattern { c5Frame with hasSpillRate := false } flatQuarters =
      .ok flatQuarters ∧
    refineByFareSensitivity { c5Frame with hasConstFare := false } flatQuarters =
      .ok flatQuarters :=
  ⟨rfl, rfl, rfl, rfl⟩

/-- The rounding of Python `round(x, 4)` moves a value by at most
1/20000. -/
theorem abs_round4_sub (x : ℚ) : |round4 x - x| ≤ 1 / 20000 := by
  have h := abs_sub_round (x * 10 ^ 4)
  have h4 : (0 : ℚ) < 10 ^ 4 := by norm_num
  have key : round4 x - x = ((round (x * 10 ^ 4) : ℚ) - x * 10 ^ 4) / 10 ^ 4 := by
    unfold round4 roundTo
    field_simp
    ring
  rw [key, abs_div, abs_of_pos h4]
  rw [abs_sub_comm] at h
  calc |(round (x * 10 ^ 4) : ℚ) - x * 10 ^ 4| / 10 ^ 4 ≤ (1 / 2) / 10 ^ 4 := by gcongr
    _ = 1 / 20000 := by norm_num

/-- Rounding to four decimals preserves nonnegativity. -/
theorem round4_nonneg {x : ℚ} (hx : 0 ≤ x) : 0 ≤ round4 x := by
  unfold round4 roundTo
  have : (0 : ℤ) ≤ round (x * 10 ^ 4) := by
    rw [round_eq]
    exact Int.le_floor.mpr (by positivity)
  positivity

/-- Five values that sum to 1 still sum to 1 within 1/4000 after each is
rounded to four decimals. -/
theorem round4_five_sum (y1 y2 y3 y4 y5 : ℚ) (h : y1 + y2 + y3 + y4 + y5 = 1) :
    |round4 y1 + round4 y2 + round4 y3 + round4 y4 + round4 y5 - 1| ≤ 1 / 4000 := by
  have b1 := abs_round4_sub y1
  have b2 := abs_round4_sub y2
  have b3 := abs_round4_sub y3
  have b4 := abs_round4_sub y4
  have b5 := abs_round4_sub y5
  have key : round4 y1 + round4 y2 + round4 y3 + round4 y4 + round4 y5 - 1 =
      (round4 y1 - y1) + (round4 y2 - y2) + (round4 y3 - y3) +
      (round4 y4 - y4) + (round4 y5 - y5) := by linarith
  rw [key]
  have t1 := abs_add (round4 y1 - y1) (round4 y2 - y2)
  have t2 := abs_add ((round4 y1 - y1) + (round4 y2 - y2)) (round4 y3 - y3)
  have t3 := abs_add ((round4 y1 - y1) + (round4 y2 - y2) + (round4 y3 - y3))
    (round4 y4 - y4)
  have t4 := abs_add ((round4 y1 - y1) + (round4 y2 - y2) + (round4 y3 - y3) +
    (round4 y4 - y4)) (round4 y5 - y5)
  linarith

/-- The closing normalization of a nonnegative mix with positive total
yields a nonnegative mix whose weights sum to 1 within 1/4000 (five
values each rounded to four decimals). -/
theorem normalizeMixRound4_spec (p : SegmentMix) (hp : p.Nonneg) (ht : 0 < p.total) :
    (normalizeMixRound4 p).Nonneg ∧ |(normalizeMixRound4 p).total - 1| ≤ 1 / 4000 := by
  obtain ⟨h1, h2, h3, h4, h5⟩ := hp
  have htle := ht.le
  constructor
  · exact ⟨round4_nonneg (by positivity), round4_nonneg (by positivity),
      round4_nonneg (by positivity), round4_nonneg (by positivity),
      round4_nonneg (by positivity)⟩
  · have hsum : p.vfr / p.total + p.leisure / p.total + p.cruise / p.total +
        p.business / p.total + p.other / p.total = 1 := by
      rw [div_add_div_same, div_add_div_same, div_add_div_same, div_add_div_same]
      exact div_self (ne_of_gt ht)
    have hshape : (normalizeMixRound4 p).total =
        round4 (p.vfr / p.total) + round4 (p.leisure / p.total) +
        round4 (p.cruise / p.total) + round4 (p.business / p.total) +
        round4 (p.other / p.total) := rfl
    rw [hshape]
    exact round4_five_sum _ _ _ _ _ hsum

/-- Unpacking the normalization: when it returns a mix, the input total
was nonzero and the output is the rounded comprehension. -/
theorem normalizeRound4_ok_spec {p m : SegmentMix} (hp : p.Nonneg)
    (h : normalizeRound4 p = .ok m) : m.Nonneg ∧ |m.total - 1| ≤ 1 / 4000 := by
  unfold normalizeRound4 at h
  by_cases h0 : p.total = 0
  · rw [if_pos h0] at h
    exact absurd h (by simp)
  · rw [if_neg h0] at h
    have hm : m = normalizeMixRound4 p := (Except.ok.injEq _ _).mp h |>.symm
    have htn : 0 ≤ p.total := by
      obtain ⟨h1, h2, h3, h4, h5⟩ := hp
      unfold SegmentMix.total
      positivity
    have ht : 0 < p.total := lt_of_le_of_ne htn (Ne.symm h0)
    rw [hm]
    exact normalizeMixRound4_spec p hp ht

/-- The weekend block preserves nonnegativity. -/
theorem dowWeekendAdjust_nonneg (w : ℚ) {p : SegmentMix} (hp : p.Nonneg) :
    (dowWeekendAdjust w p).Nonneg := by
  obtain ⟨h1, h2, h3, h4, h5⟩ := hp
  unfold dowWeekendAdjust
  split_ifs
  · exact ⟨le_min (by norm_num) (by positivity), h2, h3, by positivity, h5⟩
  · exact ⟨h1, h2, h3, h4, h5⟩

/-- The Saturday block preserves nonnegativity. -/
theorem dowSaturdayAdjust_nonneg (s : ℚ) {p : SegmentMix} (hp : p.Nonneg) :
    (dowSaturdayAdjust s p).Nonneg := by
  obtain ⟨h1, h2, h3, h4, h5⟩ := hp
  unfold dowSaturdayAdjust
  split_ifs
  · exact ⟨h1, h2, le_min (by norm_num) (by positivity), h4, h5⟩
  · exact ⟨h1, h2, h3, h4, h5⟩

/-- The weekday block preserves nonnegativity. -/
theorem dowWeekdayAdjust_nonneg (w : ℚ) {p : SegmentMix} (hp : p.Nonneg) :
    (dowWeekdayAdjust w p).Nonneg := by
  obtain ⟨h1, h2, h3, h4, h5⟩ := hp
  unfold dowWeekdayAdjust
  split_ifs
  · exact ⟨h1, by positivity, h3, le_min (by norm_num) (by positivity), h5⟩
  · exact ⟨h1, h2, h3, h4, h5⟩

/-- The spill block preserves nonnegativity. -/
theorem spillAdjust_nonneg (a : ℚ) {p : SegmentMix} (hp : p.Nonneg) :
    (spillAdjust a p).Nonneg := by
  obtain ⟨h1, h2, h3, h4, h5⟩ := hp
  unfold spillAdjust
  split_ifs
  · exact ⟨le_min (by norm_num) (by positivity), h2,
      le_min (by norm_num) (by positivity), h4, h5⟩
  · exact ⟨h1, le_min (by norm_num) (by positivity), h3, h4, h5⟩
  · exact ⟨h1, h2, h3, h4, h5⟩

/-- The fare block preserves nonnegativity. -/
theorem fareAdjust_nonneg (a : ℚ) {p : SegmentMix} (hp : p.Nonneg) :
    (fareAdjust a p).Nonneg := by
  obtain ⟨h1, h2, h3, h4, h5⟩ := hp
  unfold fareAdjust
  split_ifs
  · exact ⟨le_min (by norm_num) (by positivity), by positivity, h3,
      le_min (by norm_num) (by positivity), h5⟩
  · exact ⟨h1, le_min (by norm_num) (by positivity), h3, by positivity, h5⟩
  · exact ⟨h1, h2, h3, h4, h5⟩

/-- The day-of-week stage, when it returns a mix, returns a nonnegative
mix summing to 1 within 1/4000, given an input mix satisfying the same
invariant. -/
theorem refineByDow_ok_spec {f : RouteFrame} {p m : SegmentMix} (hp : p.Nonneg)
    (hs : |p.total - 1| ≤ 1 / 4000) (h : refineByDowPattern f p = .ok m) :
    m.Nonneg ∧ |m.total - 1| ≤ 1 / 4000 := by
  unfold refineByDowPattern at h
  split_ifs at h
  · exact (Except.ok.injEq _ _).mp h ▸ ⟨hp, hs⟩
  · exact normalizeRound4_ok_spec hp h
  · exact normalizeRound4_ok_spec
      (dowWeekdayAdjust_nonneg _ (dowSaturdayAdjust_nonneg _ (dowWeekendAdjust_nonneg _ hp))) h

/-- The spill stage satisfies the same invariant-preservation property. -/
theorem refineBySpill_ok_spec {f : RouteFrame} {p m : SegmentMix} (hp : p.Nonneg)
    (hs : |p.total - 1| ≤ 1 / 4000) (h : refineBySpillPattern f p = .ok m) :
    m.Nonneg ∧ |m.total - 1| ≤ 1 / 4000 := by
  unfold refineBySpillPattern at h
  split_ifs at h
  · exact (Except.ok.injEq _ _).mp h ▸ ⟨hp, hs⟩
  · exact normalizeRound4_ok_spec hp h
  · exact normalizeRound4_ok_spec (spillAdjust_nonneg _ hp) h

/-- The fare stage satisfies the same invariant-preservation property. -/
theorem refineByFare_ok_spec {f : RouteFrame} {p m : SegmentMix} (hp : p.Nonneg)
    (hs : |p.total - 1| ≤ 1 / 4000) (h : refineByFareSensitivity f p = .ok m) :
    m.Nonneg ∧ |m.total - 1| ≤ 1 / 4000 := by
  unfold refineByFareSensitivity at h
  split_ifs at h
  · exact (Except.ok.injEq _ _).mp h ▸ ⟨hp, hs⟩
  · exact normalizeRound4_ok_spec hp h
  · exact normalizeRound4_ok_spec (fareAdjust_nonneg _ hp) h

/-- The geography override profile is nonnegative with positive total in
every branch. -/
theorem geoOverrides_nonneg_total (oc dc : List String) :
    (geoOverrides oc dc).Nonneg ∧ 0 < (geoOverrides oc dc).total := by
  unfold geoOverrides
  split_ifs <;>
    constructor <;>
    norm_num [SegmentMix.Nonneg, SegmentMix.total]

/-- C4 counterexample: on route JFK-MSY (geography prior
(0.25, 0.15, 0.20, 0.25, 0.15), a cruise-port destination) and a frame
whose Saturday share of the peak day is 2/3, the day-of-week refinement
returns the mix (0.2273, 0.1364, 0.2727, 0.2273, 0.1364), whose sum is
1.0001: off from 1.0 by 1e-4, a hundred times the 1e-6 tolerance the
claim states. -/
theorem mix_sum_tolerance_counterexample :
    inferRouteSegmentProfile "JFK" "MSY" = ⟨0.25, 0.15, 0.20, 0.25, 0.15⟩ ∧
    refineByDowPattern c4Frame (inferRouteSegmentProfile "JFK" "MSY") = .ok c4Mix ∧
    c4Mix.total = 1.0001 ∧
    ¬ |c4Mix.total - 1| ≤ 1 / 1000000 := by
  have hm : categorizeAirport "MSY" = ["cruise_ports"] := by decide
  have hj : categorizeAirport "JFK" = ["business_hub"] := by decide
  have hprior : inferRouteSegmentProfile "JFK" "MSY" = ⟨0.25, 0.15, 0.20, 0.25, 0.15⟩ := by
    rw [inferRouteSegmentProfile, hm, hj]
    simp only [inferProfileFromCats, geoOverrides,
      eq_true (by decide : ("cruise_ports" ∈ (["cruise_ports"] : List String))),
      eq_false (by decide : ¬ ("beach_resort" ∈ (["cruise_ports"] : List String))),
      eq_false (by decide : ¬ ("theme_park" ∈ (["cruise_ports"] : List String))),
      eq_false (by decide : ¬ ("casino" ∈ (["cruise_ports"] : List String))),
      eq_true (by decide : ("business_hub" ∈ (["business_hub"] : List String))),
      eq_false (by decide : ¬ ("business_hub" ∈ (["cruise_ports"] : List String))),
      eq_false (by decide : ¬ ("secondary" ∈ (["business_hub"] : List String))),
      eq_false (by decide : ¬ ("secondary" ∈ (["cruise_ports"] : List String))),
      if_true, if_false, and_true, true_and, and_false, false_and, or_false, false_or]
    norm_num [normalizeMixRound4, SegmentMix.total, round4, roundTo, round_eq,
      SegmentMix.mk.injEq]
  refine ⟨hprior, ?_, by norm_num [c4Mix, SegmentMix.total], ?_⟩
  · rw [hprior]
    norm_num [refineByDowPattern, c4Frame, dowRow, paxTotal, paxOnDay, daysPresent,
      weekendShare, satPeakShare, weekdayShare, distValuesSum, distValuesMax, listMax,
      List.dedup, List.filter, dowWeekendAdjust, dowSaturdayAdjust, dowWeekdayAdjust,
      normalizeRound4, normalizeMixRound4, SegmentMix.total,
      round4, roundTo, round_eq, SegmentMix.mk.injEq, c4Mix]
  · norm_num [c4Mix, SegmentMix.total]
    rw [abs_of_pos (by norm_num : (0:ℚ) < 1 / 10000)]
    norm_num

/-- C4 amended: every mix produced by the geography prior or returned by
one of the three refinement stages has nonnegative weights; the
geography prior and, inductively, every stage output sums to 1 within
1/4000 (five weights each rounded to four decimals move the unit sum by
at most 5 x 1/20000), but not within the 1e-6 the claim states. -/
theorem mix_stage_nonneg_sum_bound :
    (∀ origin destination : String,
      (inferRouteSegmentProfile origin destination).Nonneg ∧
      |(inferRouteSegmentProfile origin destination).total - 1| ≤ 1 / 4000) ∧
    (∀ (f : RouteFrame) (p m : SegmentMix), p.Nonneg → |p.total - 1| ≤ 1 / 4000 →
      refineByDowPattern f p = .ok m → m.Nonneg ∧ |m.total - 1| ≤ 1 / 4000) ∧
    (∀ (f : RouteFrame) (p m : SegmentMix), p.Nonneg → |p.total - 1| ≤ 1 / 4000 →
      refineBySpillPattern f p = .ok m → m.Nonneg ∧ |m.total - 1| ≤ 1 / 4000) ∧
    (∀ (f : RouteFrame) (p m : SegmentMix), p.Nonneg → |p.total - 1| ≤ 1 / 4000 →
      refineByFareSensitivity f p = .ok m → m.Nonneg ∧ |m.total - 1| ≤ 1 / 4000) := by
  refine ⟨fun o d => ?_, fun f p m hp hs h => refineByDow_ok_spec hp hs h,
    fun f p m hp hs h => refineBySpill_ok_spec hp hs h,
    fun f p m hp hs h => refineByFare_ok_spec hp hs h⟩
  have hg := geoOverrides_nonneg_total (categorizeAirport o) (categorizeAirport d)
  exact normalizeMixRound4_spec _ hg.1 hg.2

/-- Witness for C4 amended: the day-of-week stage applied to the flat
quarter prior on a weekday-heavy frame. -/
theorem mix_stage_nonneg_sum_bound_witness :
    flatQuarters.Nonneg ∧ |flatQuarters.total - 1| ≤ 1 / 4000 ∧
    refineByDowPattern weekdayFrame flatQuarters =
      .ok ⟨0.2381, 0.2143, 0, 0.3095, 0.2381⟩ ∧
    (SegmentMix.Nonneg ⟨0.2381, 0.2143, 0, 0.3095, 0.2381⟩ ∧
      |(SegmentMix.total ⟨0.2381, 0.2143, 0, 0.3095, 0.2381⟩) - 1| ≤ 1 / 4000) := by
  have hp : flatQuarters.Nonneg := by norm_num [flatQuarters, SegmentMix.Nonneg]
  have hs : |flatQuarters.total - 1| ≤ 1 / 4000 := by
    norm_num [flatQuarters, SegmentMix.total]
  have hok : refineByDowPattern weekdayFrame flatQuarters =
      .ok ⟨0.2381, 0.2143, 0, 0.3095, 0.2381⟩ := by
    norm_num [refineByDowPattern, weekdayFrame, dowRow, paxTotal, paxOnDay, daysPresent,
      weekendShare, satPeakShare, weekdayShare, distValuesSum, distValuesMax, listMax,
      List.dedup, List.filter, dowWeekendAdjust, dowSaturdayAdjust, dowWeekdayAdjust,
      normalizeRound4, normalizeMixRound4, SegmentMix.total, flatQuarters,
      round4, roundTo, round_eq, SegmentMix.mk.injEq]
  exact ⟨hp, hs, hok, mix_stage_nonneg_sum_bound.2.1 weekdayFrame flatQuarters _ hp hs hok⟩

/-- C7 counterexample: a cruise signal of strength 0.2 is active (the
aggregator includes every signal of positive strength), yet
`adjust_segment_mix` leaves the mix untouched because the cruise branch
demands strength above 0.3, while the claimed behaviour boosts the
cruise segment by 0.2 x 0.15 = 0.03: the two differ on the flat mix. -/
theorem adjust_segment_mix_counterexample :
    adjustSegmentMix flatFifths weakCruiseSignals = ⟨0.2, 0.2, 0.2, 0.2, 0.2⟩ ∧
    adjustSegmentMixClaimed flatFifths weakCruiseSignals =
      ⟨0.2, 0.185, 0.23, 0.2, 0.185⟩ ∧
    adjustSegmentMix flatFifths weakCruiseSignals ≠
      adjustSegmentMixClaimed flatFifths weakCruiseSignals := by
  have e1 : adjustSegmentMix flatFifths weakCruiseSignals = ⟨0.2, 0.2, 0.2, 0.2, 0.2⟩ := by
    simp only [adjustSegmentMix, weakCruiseSignals, flatFifths, List.foldl, applySignal,
      eq_true (by decide : ("cruise" : String) = "cruise"),
      eq_false (by decide : ¬ (("cruise" : String) = "weather")),
      eq_false (by decide : ¬ (("cruise" : String) = "seasonality")),
      eq_false (by decide : ¬ (("cruise" : String) = "trends")),
      true_and, false_and, if_false]
    norm_num [SegmentMix.total, round4, roundTo, round_eq, SegmentMix.mk.injEq]
  have e2 : adjustSegmentMixClaimed flatFifths weakCruiseSignals =
      ⟨0.2, 0.185, 0.23, 0.2, 0.185⟩ := by
    simp only [adjustSegmentMixClaimed, weakCruiseSignals, flatFifths, List.foldl,
      applySignalClaimed,
      eq_true (by decide : ("cruise" : String) = "cruise"),
      eq_false (by decide : ¬ (("cruise" : String) = "weather")),
      eq_false (by decide : ¬ (("cruise" : String) = "seasonality")),
      eq_false (by decide : ¬ (("cruise" : String) = "trends")),
      true_and, false_and, if_false]
    norm_num [SegmentMix.total, round4, roundTo, round_eq, SegmentMix.mk.injEq]
  refine ⟨e1, e2, ?_⟩
  rw [e1, e2]
  intro hcontra
  have := congrArg SegmentMix.cruise hcontra
  norm_num at this

/-- One signal application agrees with the claimed behaviour once the
strength exceeds the 0.3 threshold. -/
theorem applySignal_eq_claimed (m : SegmentMix) (s : String × SignalData)
    (h : s.2.signal_strength > 0.3) : applySignal m s = applySignalClaimed m s := by
  have h0 : s.2.signal_strength > 0 := lt_trans (by norm_num) h
  unfold applySignal applySignalClaimed
  simp only [eq_true h, eq_true h0, and_true]

/-- Fold congruence over the members of the list. -/
theorem foldl_congr_mem {α β : Type} (f g : α → β → α) (l : List β)
    (h : ∀ b ∈ l, ∀ a, f a b = g a b) : ∀ a, l.foldl f a = l.foldl g a := by
  induction l with
  | nil => intro a; rfl
  | cons x xs ih =>
      intro a
      simp only [List.foldl_cons]
      rw [h x (List.mem_cons_self x xs) a]
      exact ih (fun b hb a2 => h b (List.mem_cons_of_mem x hb) a2) _

/-- C7 amended: `adjust_segment_mix` applies a signal only when its
strength exceeds 0.3 for the cruise, weather and trends branches (the
seasonality branch has no threshold); on signal maps whose entries all
exceed that threshold it coincides with the claimed every-active-signal
behaviour, with the stated coefficients, caps, splits and closing
renormalization. -/
theorem adjust_segment_mix_threshold (base : SegmentMix)
    (signals : List (String × SignalData))
    (h : ∀ s ∈ signals, s.2.signal_strength > 0.3) :
    adjustSegmentMix base signals = adjustSegmentMixClaimed base signals := by
  unfold adjustSegmentMix adjustSegmentMixClaimed
  rw [foldl_congr_mem applySignal applySignalClaimed signals
    (fun s hs a => applySignal_eq_claimed a s (h s hs)) base]

/-- Witness for C7 amended at a weather signal of strength 0.4. -/
theorem adjust_segment_mix_threshold_witness :
    (∀ s ∈ strongWeatherSignals, s.2.signal_strength > 0.3) ∧
    adjustSegmentMix flatFifths strongWeatherSignals =
      adjustSegmentMixClaimed flatFifths strongWeatherSignals := by
  have h : ∀ s ∈ strongWeatherSignals, s.2.signal_strength > 0.3 := by
    intro s hs
    simp only [strongWeatherSignals, List.mem_singleton] at hs
    subst hs
    norm_num
  exact ⟨h, adjust_segment_mix_threshold flatFifths strongWeatherSignals h⟩

/-- C9: the day-of-week refinement is a function of the input profile
and the three shares of the pax-weighted day distribution alone — the
weekend share, the Saturday-to-peak-day share and the weekday share.
The Pearson fit scores the source computes against the five canonical
DOW patterns (`segment_fits`) are never read, so two frames with equal
shares produce the same output whatever their weekly shapes and hence
whatever their correlations with those patterns. -/
theorem refine_dow_determined_by_shares (f1 f2 : RouteFrame) (p : SegmentMix)
    (hd1 : f1.hasDow = true) (hd2 : f2.hasDow = true)
    (hp1 : f1.hasConstLocalPax = true) (hp2 : f2.hasConstLocalPax = true)
    (hr1 : f1.rows.isEmpty = false) (hr2 : f2.rows.isEmpty = false)
    (hs1 : paxTotal f1 ≠ 0) (hs2 : paxTotal f2 ≠ 0)
    (hw : weekendShare f1 = weekendShare f2)
    (hsat : satPeakShare f1 = satPeakShare f2)
    (hwd : weekdayShare f1 = weekdayShare f2) :
    refineByDowPattern f1 p = refineByDowPattern f2 p := by
  unfold refineByDowPattern
  rw [hd1, hd2, hp1, hp2, hr1, hr2]
  simp only [Bool.true_eq_false, if_false]
  rw [if_neg hs1, if_neg hs2, hw, hsat, hwd]

/-- Witness for C9: two frames with different weekly shapes (day 1
versus day 3 carrying the weekday mass, different Friday/Sunday split)
but equal weekend, Saturday-to-peak and weekday shares. -/
theorem refine_dow_determined_by_shares_witness :
    c9FrameA.rows ≠ c9FrameB.rows ∧
    weekendShare c9FrameA = weekendShare c9FrameB ∧
    satPeakShare c9FrameA = satPeakShare c9FrameB ∧
    weekdayShare c9FrameA = weekdayShare c9FrameB ∧
    refineByDowPattern c9FrameA flatQuarters = refineByDowPattern c9FrameB flatQuarters := by
  have hw : weekendShare c9FrameA = weekendShare c9FrameB := by
    norm_num [weekendShare, c9FrameA, c9FrameB, dowRow, paxTotal, paxOnDay,
      daysPresent, distValuesSum, List.dedup, List.filter]
  have hsat : satPeakShare c9FrameA = satPeakShare c9FrameB := by
    norm_num [satPeakShare, c9FrameA, c9FrameB, dowRow, paxTotal, paxOnDay,
      daysPresent, distValuesMax, listMax, List.dedup, List.filter]
  have hwd : weekdayShare c9FrameA = weekdayShare c9FrameB := by
    norm_num [weekdayShare, c9FrameA, c9FrameB, dowRow, paxTotal, paxOnDay,
      daysPresent, distValuesSum, List.dedup, List.filter]
  refine ⟨by decide, hw, hsat, hwd, ?_⟩
  exact refine_dow_determined_by_shares c9FrameA c9FrameB flatQuarters rfl rfl rfl rfl
    rfl rfl
    (by norm_num [paxTotal, c9FrameA, dowRow])
    (by norm_num [paxTotal, c9FrameB, dowRow])
    hw hsat hwd

/-- Flat-map congruence over the members of the list. -/
theorem flatMap_congr_mem {α β : Type} (l : List α) (f g : α → List β)
    (h : ∀ a ∈ l, f a = g a) : l.flatMap f = l.flatMap g := by
  induction l with
  | nil => rfl
  | cons x xs ih =>
      simp only [List.flatMap_cons]
      rw [h x (List.mem_cons_self x xs),
        ih (fun a ha => h a (List.mem_cons_of_mem x ha))]

/-- C10: with a current-equipment string that matches no spec key, the
evaluation does not fail: the baseline falls back to the A320neo spec
(182 seats) while the alternatives are enumerated over the full spec set
with no current-state skip. -/
theorem evaluate_options_unknown_equipment (route : Route) (cur : String)
    (current_freq : ℤ) (h : specLookup cur = none) :
    specOrA320neo cur = ⟨182, 3500, 600, 4800, 2, 4⟩ ∧
    (currentSwapOption route cur current_freq).seats = 182 ∧
    enumSwapOptions route cur current_freq =
      currentSwapOption route cur current_freq ::
        swapAlternativesNoSkip route cur current_freq ∧
    evaluateOptions route cur current_freq =
      sortDescBy SwapOption.delta_profit
        (currentSwapOption route cur current_freq ::
          swapAlternativesNoSkip route cur current_freq) := by
  have h1 : cur ≠ "A319" := by rintro rfl; exact absurd h (by decide)
  have h2 : cur ≠ "A320neo" := by rintro rfl; exact absurd h (by decide)
  have h3 : cur ≠ "A321neo" := by rintro rfl; exact absurd h (by decide)
  have hspec : specOrA320neo cur = ⟨182, 3500, 600, 4800, 2, 4⟩ := by
    unfold specOrA320neo
    rw [h]
    rfl
  have halt : swapAlternatives route cur current_freq =
      swapAlternativesNoSkip route cur current_freq := by
    unfold swapAlternatives swapAlternativesNoSkip
    refine flatMap_congr_mem _ _ _ (fun ts hts => ?_)
    have hts1 : ts.1 ≠ cur := by
      simp only [AIRCRAFT_SPECS, List.mem_cons, List.not_mem_nil, or_false] at hts
      rcases hts with rfl | rfl | rfl
      · exact fun hh => h1 hh.symm
      · exact fun hh => h2 hh.symm
      · exact fun hh => h3 hh.symm
    refine congrArg (fun g => List.filterMap g ([-1, 0, 1] : List ℤ))
      (funext fun freq_delta => ?_)
    simp only [eq_false hts1, false_and, if_false]
  refine ⟨hspec, ?_, ?_, ?_⟩
  · simp only [currentSwapOption, hspec]
  · unfold enumSwapOptions
    rw [halt]
  · unfold evaluateOptions enumSwapOptions
    rw [halt]

/-- Witness for C10 at the unknown type B737 on the witness route. -/
theorem evaluate_options_unknown_equipment_witness :
    specLookup "B737" = none ∧
    specOrA320neo "B737" = ⟨182, 3500, 600, 4800, 2, 4⟩ ∧
    (currentSwapOption witnessRoute "B737" 2).seats = 182 ∧
    enumSwapOptions witnessRoute "B737" 2 =
      currentSwapOption witnessRoute "B737" 2 ::
        swapAlternativesNoSkip witnessRoute "B737" 2 := by
  have h : specLookup "B737" = none := by decide
  have hm := evaluate_options_unknown_equipment witnessRoute "B737" 2 h
  exact ⟨h, hm.1, hm.2.1, hm.2.2.1⟩

/-- Membership in an insertion. -/
theorem mem_insertDescBy {α β : Type} [LinearOrder β] (key : α → β) (x a : α) :
    ∀ l : List α, a ∈ insertDescBy key x l ↔ a = x ∨ a ∈ l := by
  intro l
  induction l with
  | nil => simp [insertDescBy]
  | cons y ys ih =>
      unfold insertDescBy
      split_ifs
      · simp [List.mem_cons]
      · simp only [List.mem_cons, ih]
        tauto

/-- Membership is preserved by the stable sort. -/
theorem mem_sortDescBy {α β : Type} [LinearOrder β] (key : α → β) (a : α) :
    ∀ l : List α, a ∈ sortDescBy key l ↔ a ∈ l := by
  intro l
  induction l with
  | nil => simp [sortDescBy]
  | cons x xs ih =>
      unfold sortDescBy
      rw [mem_insertDescBy, ih, List.mem_cons]

/-- Insertion preserves descending sortedness. -/
theorem pairwise_insertDescBy {α β : Type} [LinearOrder β] (key : α → β) (x : α) :
    ∀ l : List α, l.Pairwise (fun a b => key b ≤ key a) →
      (insertDescBy key x l).Pairwise (fun a b => key b ≤ key a) := by
  intro l
  induction l with
  | nil => intro _; simp [insertDescBy]
  | cons y ys ih =>
      intro hp
      rw [List.pairwise_cons] at hp
      obtain ⟨hy, hys⟩ := hp
      unfold insertDescBy
      split_ifs with hxy
      · refine List.Pairwise.cons (fun z hz => ?_) (List.Pairwise.cons hy hys)
        rcases List.mem_cons.mp hz with rfl | hz2
        · exact hxy
        · exact (hy z hz2).trans hxy
      · refine List.Pairwise.cons (fun z hz => ?_) (ih hys)
        rcases (mem_insertDescBy key x z ys).mp hz with rfl | hz2
        · exact (not_le.mp hxy).le
        · exact hy z hz2

/-- The stable sort produces a list sorted by descending key. -/
theorem pairwise_sortDescBy {α β : Type} [LinearOrder β] (key : α → β) :
    ∀ l : List α, (sortDescBy key l).Pairwise (fun a b => key b ≤ key a) := by
  intro l
  induction l with
  | nil => simp [sortDescBy]
  | cons x xs ih => exact pairwise_insertDescBy key x _ ih

/-- An insertion is never empty. -/
theorem insertDescBy_ne_nil {α β : Type} [LinearOrder β] (key : α → β) (x : α) :
    ∀ l : List α, insertDescBy key x l ≠ [] := by
  intro l
  cases l with
  | nil => simp [insertDescBy]
  | cons y ys =>
      unfold insertDescBy
      split_ifs <;> simp

/-- The Python max of a list whose head dominates is the head. -/
theorem pyMaxBy_of_head_max {α β : Type} [LinearOrder β] (key : α → β) :
    ∀ (t : List α) (h : α), (∀ o ∈ t, key o ≤ key h) → pyMaxBy key h t = h := by
  intro t
  induction t with
  | nil => intro h _; rfl
  | cons y ys ih =>
      intro h hall
      unfold pyMaxBy
      simp only [List.foldl_cons]
      rw [if_neg (not_lt.mpr (hall y (List.mem_cons_self y ys)))]
      exact ih h (fun o ho => hall o (List.mem_cons_of_mem y ho))

/-- The Python max is a member of the list. -/
theorem pyMaxBy_mem {α β : Type} [LinearOrder β] (key : α → β) :
    ∀ (t : List α) (h : α), pyMaxBy key h t ∈ h :: t := by
  intro t
  induction t with
  | nil => intro h; simp [pyMaxBy]
  | cons y ys ih =>
      intro h
      unfold pyMaxBy
      simp only [List.foldl_cons]
      split_ifs
      · rcases List.mem_cons.mp (ih y) with hm | hm
        · rw [show List.foldl (fun best x => if key best < key x then x else best) y ys
              = pyMaxBy key y ys from rfl, hm]
          simp
        · rw [show List.foldl (fun best x => if key best < key x then x else best) y ys
              = pyMaxBy key y ys from rfl] at *
          simp [List.mem_cons, hm]
      · rcases List.mem_cons.mp (ih h) with hm | hm
        · rw [show List.foldl (fun best x => if key best < key x then x else best) h ys
              = pyMaxBy key h ys from rfl, hm]
          simp
        · rw [show List.foldl (fun best x => if key best < key x then x else best) h ys
              = pyMaxBy key h ys from rfl] at *
          simp [List.mem_cons, hm]

/-- The Python max dominates every element. -/
theorem pyMaxBy_max {α β : Type} [LinearOrder β] (key : α → β) :
    ∀ (t : List α) (h : α), ∀ o ∈ h :: t, key o ≤ key (pyMaxBy key h t) := by
  intro t
  induction t with
  | nil =>
      intro h o ho
      rcases List.mem_cons.mp ho with rfl | hm
      · exact le_refl _
      · cases hm
  | cons y ys ih =>
      intro h o ho
      unfold pyMaxBy
      simp only [List.foldl_cons]
      rcases List.mem_cons.mp ho with rfl | hm
      · split_ifs with hlt
        · exact le_of_lt (lt_of_lt_of_le hlt
            (ih y y (List.mem_cons_self y ys)))
        · exact ih o o (List.mem_cons_self o ys)
      · rcases List.mem_cons.mp hm with rfl | hm2
        · split_ifs with hlt
          · exact ih o o (List.mem_cons_self o ys)
          · exact le_trans (not_lt.mp hlt) (ih h h (List.mem_cons_self h ys))
        · split_ifs with hlt
          · exact ih y o (List.mem_cons_of_mem y hm2)
          · exact ih h o (List.mem_cons_of_mem h hm2)

/-- Unfolding the Python max over a cons: the earlier element wins
exactly when its key is at least the max key of the rest. -/
theorem pyMaxBy_cons {α β : Type} [LinearOrder β] (key : α → β) :
    ∀ (zs : List α) (x y : α),
      pyMaxBy key x (y :: zs) =
        if key (pyMaxBy key y zs) ≤ key x then x else pyMaxBy key y zs := by
  intro zs
  induction zs with
  | nil =>
      intro x y
      show (if key x < key y then y else x) = if key y ≤ key x then x else y
      rcases le_or_lt (key y) (key x) with hle | hlt
      · rw [if_neg (not_lt.mpr hle), if_pos hle]
      · rw [if_pos hlt, if_neg (not_le.mpr hlt)]
  | cons z zs ih =>
      intro x y
      have l1 : pyMaxBy key x (y :: z :: zs) =
          pyMaxBy key (if key x < key y then y else x) (z :: zs) := rfl
      have l2 : pyMaxBy key y (z :: zs) =
          if key (pyMaxBy key z zs) ≤ key y then y else pyMaxBy key z zs := ih y z
      rw [l1, ih _ z, l2]
      rcases le_or_lt (key (pyMaxBy key z zs)) (key y) with h1 | h1
      · rw [if_pos h1]
        rcases lt_or_le (key x) (key y) with h2 | h2
        · rw [if_pos h2, if_pos h1, if_neg (not_le.mpr h2)]
        · rw [if_neg (not_lt.mpr h2), if_pos (h1.trans h2), if_pos h2]
      · rw [if_neg (not_le.mpr h1)]
        rcases lt_or_le (key x) (key y) with h2 | h2
        · rw [if_pos h2, if_neg (not_le.mpr h1), if_neg (not_le.mpr (h2.trans h1))]
        · rw [if_neg (not_lt.mpr h2)]

/-- The head of the stable descending sort is the Python max of the
original list: the first element attaining the maximal key. -/
theorem head_sortDescBy {α β : Type} [LinearOrder β] (key : α → β) :
    ∀ (l : List α) (x : α),
      (sortDescBy key (x :: l)).head? = some (pyMaxBy key x l) := by
  intro l
  induction l with
  | nil => intro x; rfl
  | cons y ys ih =>
      intro x
      obtain ⟨m, s, hs⟩ : ∃ m s, sortDescBy key (y :: ys) = m :: s := by
        cases hsy : sortDescBy key (y :: ys) with
        | nil =>
            exact absurd hsy (by unfold sortDescBy; exact insertDescBy_ne_nil key y _)
        | cons m s => exact ⟨m, s, rfl⟩
      have hm : m = pyMaxBy key y ys := by
        have hh := ih y
        rw [hs] at hh
        exact Option.some.inj hh
      show (insertDescBy key x (sortDescBy key (y :: ys))).head? = _
      rw [hs]
      unfold insertDescBy
      rw [pyMaxBy_cons key ys x y, ← hm]
      split_ifs <;> rfl

/-- C8: `evaluate_options` returns its option list sorted by descending
delta-profit (the sort is stable, so equal deltas keep enumeration
order), and `get_best_option` returns the Python max of the enumerated
options: an option of maximal delta-profit, ties resolved to the first
occurrence in the enumeration (the Current baseline first, then the
spec-table aircraft types, each with frequency deltas -1, 0, +1). -/
theorem evaluate_options_sorted_and_best (route : Route) (cur : String)
    (current_freq : ℤ) :
    (evaluateOptions route cur current_freq).Pairwise
      (fun a b => b.delta_profit ≤ a.delta_profit) ∧
    getBestOption route cur current_freq = some (pyMaxBy SwapOption.delta_profit
      (currentSwapOption route cur current_freq)
      (swapAlternatives route cur current_freq)) ∧
    pyMaxBy SwapOption.delta_profit (currentSwapOption route cur current_freq)
      (swapAlternatives route cur current_freq) ∈ enumSwapOptions route cur current_freq ∧
    (∀ o ∈ enumSwapOptions route cur current_freq, o.delta_profit ≤
      (pyMaxBy SwapOption.delta_profit (currentSwapOption route cur current_freq)
        (swapAlternatives route cur current_freq)).delta_profit) := by
  refine ⟨pairwise_sortDescBy _ _, ?_, ?_, ?_⟩
  · obtain ⟨m, s, hs⟩ : ∃ m s, evaluateOptions route cur current_freq = m :: s := by
      cases hse : evaluateOptions route cur current_freq with
      | nil =>
          exact absurd hse
            (by unfold evaluateOptions enumSwapOptions sortDescBy
                exact insertDescBy_ne_nil _ _ _)
      | cons m s => exact ⟨m, s, rfl⟩
    have hm : m = pyMaxBy SwapOption.delta_profit
        (currentSwapOption route cur current_freq)
        (swapAlternatives route cur current_freq) := by
      have hh := head_sortDescBy SwapOption.delta_profit
        (swapAlternatives route cur current_freq)
        (currentSwapOption route cur current_freq)
      rw [show sortDescBy SwapOption.delta_profit
          (currentSwapOption route cur current_freq ::
            swapAlternatives route cur current_freq) =
          evaluateOptions route cur current_freq from rfl, hs] at hh
      exact Option.some.inj hh
    have hdom : ∀ o ∈ s, o.delta_profit ≤ m.delta_profit := by
      have hp := pairwise_sortDescBy SwapOption.delta_profit
        (enumSwapOptions route cur current_freq)
      rw [show sortDescBy SwapOption.delta_profit
          (enumSwapOptions route cur current_freq) =
          evaluateOptions route cur current_freq from rfl, hs,
        List.pairwise_cons] at hp
      exact hp.1
    unfold getBestOption
    rw [hs]
    show some (pyMaxBy SwapOption.delta_profit m s) = _
    rw [pyMaxBy_of_head_max SwapOption.delta_profit s m hdom, hm]
  · unfold enumSwapOptions
    exact pyMaxBy_mem _ _ _
  · intro o ho
    unfold enumSwapOptions at ho
    exact pyMaxBy_max _ _ _ o ho

/-- Keys of an upsert come from the new key and the old keys. -/
theorem keys_dictInsert_subset {β : Type} (k : String) (v : β) :
    ∀ (l : List (String × β)) (x : String),
      x ∈ (dictInsert k v l).map Prod.fst → x = k ∨ x ∈ l.map Prod.fst := by
  intro l
  induction l with
  | nil => intro x hx; simpa [dictInsert] using hx
  | cons kv rest ih =>
      intro x hx
      obtain ⟨k1, v1⟩ := kv
      unfold dictInsert at hx
      split_ifs at hx with hk
      · rcases List.mem_cons.mp hx with rfl | hx2
        · exact Or.inl rfl
        · exact Or.inr (by simp only [List.map_cons, List.mem_cons]; exact Or.inr hx2)
      · rcases List.mem_cons.mp hx with rfl | hx2
        · exact Or.inr (by simp)
        · rcases ih x hx2 with rfl | hx3
          · exact Or.inl rfl
          · exact Or.inr (by simp only [List.map_cons, List.mem_cons]; exact Or.inr hx3)

/-- An upsert preserves distinctness of keys. -/
theorem nodup_keys_dictInsert {β : Type} (k : String) (v : β) :
    ∀ l : List (String × β),
      (l.map Prod.fst).Nodup → ((dictInsert k v l).map Prod.fst).Nodup := by
  intro l
  induction l with
  | nil => intro _; simp [dictInsert]
  | cons kv rest ih =>
      intro hnd
      obtain ⟨k1, v1⟩ := kv
      simp only [List.map_cons, List.nodup_cons] at hnd
      unfold dictInsert
      split_ifs with hk
      · subst hk
        simpa [List.nodup_cons] using hnd
      · simp only [List.map_cons, List.nodup_cons]
        refine ⟨fun hmem => ?_, ih hnd.2⟩
        rcases keys_dictInsert_subset k v rest k1 hmem with rfl | hx
        · exact hk rfl
        · exact hnd.1 hx

/-- Every dict built from a pair list has distinct keys. -/
theorem nodup_keys_dictOfList {β : Type} (l : List (String × β)) :
    ((dictOfList l).map Prod.fst).Nodup := by
  suffices h : ∀ acc : List (String × β), (acc.map Prod.fst).Nodup →
      ((l.foldl (fun acc kv => dictInsert kv.1 kv.2 acc) acc).map Prod.fst).Nodup by
    exact h [] (by simp)
  induction l with
  | nil => intro acc hacc; exact hacc
  | cons kv rest ih =>
      intro acc hacc
      exact ih _ (nodup_keys_dictInsert kv.1 kv.2 acc hacc)

/-- A lookup misses every filter-mapped list whose keys it avoids. -/
theorem lookup_filterMap_none {γ β : Type} (key : γ → String) (F : γ → Option (String × β))
    (hkey : ∀ c p, F c = some p → p.1 = key c) (t : String) :
    ∀ l : List γ, t ∉ l.map key → (l.filterMap F).lookup t = none := by
  intro l
  induction l with
  | nil => intro _; rfl
  | cons c cs ih =>
      intro hnot
      simp only [List.map_cons, List.mem_cons, not_or] at hnot
      rw [List.filterMap_cons]
      cases hF : F c with
      | none => exact ih hnot.2
      | some p =>
          have hp := hkey c p hF
          have hbeq : (t == p.1) = false := by
            rw [hp]
            exact beq_eq_false_iff_ne.mpr hnot.1
          rw [List.lookup_cons, hbeq]
          exact ih hnot.2

/-- Lookup of an aircraft type in the per-route breakdown: present with
the assigned frequency exactly when that frequency is positive. -/
theorem lookup_byEquipment (σ : FreqAssign) (k : String) (t : String) :
    ∀ l : List String, l.Nodup → t ∈ l →
      ((l.filterMap (fun u => if 0 < σ k u then some (u, σ k u) else none)).lookup t) =
        if 0 < σ k t then some (σ k t) else none := by
  intro l
  induction l with
  | nil => intro _ ht; cases ht
  | cons u us ih =>
      intro hnd ht
      simp only [List.nodup_cons] at hnd
      rw [List.filterMap_cons]
      rcases List.mem_cons.mp ht with rfl | ht2
      · cases hpos : decide (0 < σ k t) with
        | true =>
            have hp := of_decide_eq_true hpos
            rw [if_pos hp, if_pos hp, List.lookup_cons,
              show (t == t) = true from beq_self_eq_true t]
        | false =>
            have hp := of_decide_eq_false hpos
            rw [if_neg hp, if_neg hp]
            exact lookup_filterMap_none id _
              (by intro c p hc
                  by_cases hcc : 0 < σ k c
                  · rw [if_pos hcc] at hc
                    exact (Prod.mk.injEq _ _ _ _).mp (Option.some.inj hc) |>.1.symm ▸ rfl
                  · rw [if_neg hcc] at hc; cases hc) t us (by simpa using hnd.1)
      · have htu : t ≠ u := fun h => hnd.1 (h ▸ ht2)
        by_cases hu : 0 < σ k u
        · rw [if_pos hu, List.lookup_cons,
            show (t == u) = false from beq_eq_false_iff_ne.mpr htu]
          exact ih hnd.2 ht2
        · rw [if_neg hu]
          exact ih hnd.2 ht2

/-- The per-route breakdown values sum to the full frequency sum once
only nonnegative frequencies are assigned. -/
theorem sum_byEquipment (σ : FreqAssign) (k : String) :
    ∀ l : List String, (∀ t ∈ l, 0 ≤ σ k t) →
      (((l.filterMap (fun u => if 0 < σ k u then some (u, σ k u) else none)).map
        Prod.snd).sum) = (l.map (fun t => σ k t)).sum := by
  intro l
  induction l with
  | nil => intro _; rfl
  | cons u us ih =>
      intro hpos
      rw [List.filterMap_cons]
      by_cases hu : 0 < σ k u
      · rw [if_pos hu]
        simp only [List.map_cons, List.sum_cons]
        rw [ih (fun t ht => hpos t (List.mem_cons_of_mem u ht))]
      · rw [if_neg hu]
        simp only [List.map_cons, List.sum_cons]
        rw [ih (fun t ht => hpos t (List.mem_cons_of_mem u ht))]
        have : σ k u = 0 := le_antisymm (not_lt.mp hu) (hpos u (List.mem_cons_self u us))
        rw [this, zero_add]

/-- An empty per-route breakdown means no positive frequency on the
route; with nonnegative frequencies, every frequency is zero. -/
theorem byEquipment_isEmpty_iff (σ : FreqAssign) (k : String) :
    (byEquipmentOf σ k).isEmpty = true ↔ ∀ t ∈ acTypes, ¬ 0 < σ k t := by
  rw [List.isEmpty_iff, byEquipmentOf, List.filterMap_eq_nil]
  constructor
  · intro h t ht hpos
    have := h t ht
    rw [if_pos hpos] at this
    cases this
  · intro h t ht
    rw [if_neg (h t ht)]

/-- Lookup of a route in a filter-mapped extraction over any route
list with distinct keys. -/
theorem lookup_extract_aux (σ : FreqAssign) (k : String) (r : Route) :
    ∀ l : List (String × Route), (l.map Prod.fst).Nodup → (k, r) ∈ l →
      (l.filterMap (fun kr =>
        let be := byEquipmentOf σ kr.1
        if be.isEmpty then none
        else some (kr.1, (⟨(be.map Prod.snd).sum, be⟩ : FreqDecision)))).lookup k =
      if (byEquipmentOf σ k).isEmpty then none
      else some ⟨((byEquipmentOf σ k).map Prod.snd).sum, byEquipmentOf σ k⟩ := by
  have hkeyF : ∀ (c : String × Route) (p : String × FreqDecision),
      (if (byEquipmentOf σ c.1).isEmpty then none
       else some (c.1, (⟨((byEquipmentOf σ c.1).map Prod.snd).sum,
         byEquipmentOf σ c.1⟩ : FreqDecision))) = some p → p.1 = c.1 := by
    intro c p hc
    by_cases hc1 : (byEquipmentOf σ c.1).isEmpty
    · rw [if_pos hc1] at hc; cases hc
    · rw [if_neg hc1] at hc
      exact congrArg Prod.fst (Option.some.inj hc) |>.symm ▸ rfl
  intro l
  induction l with
  | nil => intro _ hkr; cases hkr
  | cons kr rest ih =>
      intro hnd hkr
      simp only [List.map_cons, List.nodup_cons] at hnd
      rw [List.filterMap_cons]
      rcases List.mem_cons.mp hkr with heq | hmem
      · have hk1 : kr.1 = k := congrArg Prod.fst heq.symm
        subst hk1
        by_cases he : (byEquipmentOf σ kr.1).isEmpty
        · simp only [if_pos he]
          exact lookup_filterMap_none Prod.fst _ hkeyF kr.1 rest hnd.1
        · simp only [if_neg he]
          rw [List.lookup_cons,
            show (kr.1 == kr.1) = true from beq_self_eq_true kr.1]
      · have hk1 : k ≠ kr.1 := by
          intro h
          exact hnd.1 (h ▸ (List.mem_map_of_mem Prod.fst hmem))
        by_cases he : (byEquipmentOf σ kr.1).isEmpty
        · simp only [if_pos he]
          exact ih hnd.2 hmem
        · simp only [if_neg he]
          rw [List.lookup_cons,
            show (k == kr.1) = false from beq_eq_false_iff_ne.mpr hk1]
          exact ih hnd.2 hmem

/-- Lookup of a route in the extracted decisions. -/
theorem lookup_extractFrequencies (O : Optimizer) (σ : FreqAssign)
    (hnd : (O.routes.map Prod.fst).Nodup) (k : String) (r : Route)
    (hkr : (k, r) ∈ O.routes) :
    (extractFrequencies O σ).lookup k =
      if (byEquipmentOf σ k).isEmpty then none
      else some ⟨((byEquipmentOf σ k).map Prod.snd).sum, byEquipmentOf σ k⟩ :=
  lookup_extract_aux σ k r O.routes hnd hkr

/-- The frequency read back from the returned decisions is exactly the
solver frequency, for every route of the model and every aircraft type,
under the variable lower bounds. -/
theorem decidedFreq_eq (O : Optimizer) (σ : FreqAssign)
    (hnd : (O.routes.map Prod.fst).Nodup) {k : String} {r : Route}
    (hkr : (k, r) ∈ O.routes) {t : String} (ht : t ∈ acTypes)
    (hb : ∀ u ∈ acTypes, 0 ≤ σ k u) :
    decidedFreq (extractFrequencies O σ) k t = σ k t := by
  unfold decidedFreq
  rw [lookup_extractFrequencies O σ hnd k r hkr]
  by_cases he : (byEquipmentOf σ k).isEmpty
  · rw [if_pos he]
    have hz := (byEquipment_isEmpty_iff σ k).mp he t ht
    exact (le_antisymm (not_lt.mp hz) (hb t ht)).symm
  · rw [if_neg he]
    show ((byEquipmentOf σ k).lookup t).getD 0 = σ k t
    have hlk := lookup_byEquipment σ k t acTypes (by decide) ht
    rw [show byEquipmentOf σ k = acTypes.filterMap
      (fun u => if 0 < σ k u then some (u, σ k u) else none) from rfl, hlk]
    by_cases hp : 0 < σ k t
    · rw [if_pos hp]; rfl
    · rw [if_neg hp]
      simp only [Option.getD_none]
      exact (le_antisymm (not_lt.mp hp) (hb t ht)).symm

/-- The per-route total read back from the returned decisions is the
solver frequency sum over the aircraft types. -/
theorem decidedTotal_eq (O : Optimizer) (σ : FreqAssign)
    (hnd : (O.routes.map Prod.fst).Nodup) {k : String} {r : Route}
    (hkr : (k, r) ∈ O.routes) (hb : ∀ u ∈ acTypes, 0 ≤ σ k u) :
    decidedTotal (extractFrequencies O σ) k = routeFreqSum σ k := by
  unfold decidedTotal routeFreqSum
  rw [lookup_extractFrequencies O σ hnd k r hkr]
  by_cases he : (byEquipmentOf σ k).isEmpty
  · rw [if_pos he]
    show (0 : ℤ) = _
    have hz := (byEquipment_isEmpty_iff σ k).mp he
    have : ∀ t ∈ acTypes, σ k t = 0 :=
      fun t ht => le_antisymm (not_lt.mp (hz t ht)) (hb t ht)
    rw [List.sum_eq_zero]
    intro x hx
    rcases List.mem_map.mp hx with ⟨t, ht, rfl⟩
    exact this t ht
  · rw [if_neg he]
    exact sum_byEquipment σ k acTypes hb

/-- Map-sum congruence over the members of the list. -/
theorem sum_map_congr_mem {α : Type} (l : List α) (f g : α → ℤ)
    (h : ∀ a ∈ l, f a = g a) : (l.map f).sum = (l.map g).sum := by
  induction l with
  | nil => rfl
  | cons x xs ih =>
      simp only [List.map_cons, List.sum_cons]
      rw [h x (List.mem_cons_self x xs),
        ih (fun a ha => h a (List.mem_cons_of_mem x ha))]

/-- Map-sum congruence over the members of the list, rational version. -/
theorem sum_map_congr_mem_q {α : Type} (l : List α) (f g : α → ℚ)
    (h : ∀ a ∈ l, f a = g a) : (l.map f).sum = (l.map g).sum := by
  induction l with
  | nil => rfl
  | cons x xs ih =>
      simp only [List.map_cons, List.sum_cons]
      rw [h x (List.mem_cons_self x xs),
        ih (fun a ha => h a (List.mem_cons_of_mem x ha))]

/-- A type outside the spec table never appears in the returned
breakdown, so its read-back frequency is zero. -/
theorem decidedFreq_not_acType (O : Optimizer) (σ : FreqAssign)
    (hnd : (O.routes.map Prod.fst).Nodup) {k : String} {r : Route}
    (hkr : (k, r) ∈ O.routes) {t : String} (ht : t ∉ acTypes) :
    decidedFreq (extractFrequencies O σ) k t = 0 := by
  unfold decidedFreq
  rw [lookup_extractFrequencies O σ hnd k r hkr]
  by_cases he : (byEquipmentOf σ k).isEmpty
  · rw [if_pos he]; rfl
  · rw [if_neg he]
    show ((byEquipmentOf σ k).lookup t).getD 0 = 0
    rw [show byEquipmentOf σ k = acTypes.filterMap
      (fun u => if 0 < σ k u then some (u, σ k u) else none) from rfl]
    rw [lookup_filterMap_none id
      (fun u => if 0 < σ k u then some (u, σ k u) else none)
      (fun c p hc => by
        have hc2 : (if 0 < σ k c then some (c, σ k c) else none) = some p := hc
        by_cases hcc : 0 < σ k c
        · rw [if_pos hcc] at hc2
          exact congrArg Prod.fst (Option.some.inj hc2) |>.symm ▸ rfl
        · rw [if_neg hcc] at hc2; cases hc2) t acTypes (by simpa using ht)]
    rfl

/-- C1: whenever `optimize` reports Optimal — the abstracted CBC solve
honours the MILP contract, returning an assignment feasible for the
constraint system the code constructed — the frequency decisions read
back from the returned result satisfy all four constraint families of
the MILP: the per-(type, base) fleet bound count x 5, the per-base crew
bound (pilots x 4) // 2, every positive contractual minimum frequency,
and the per-route demand cap of daily demand x 1.2 seats. -/
theorem optimize_optimal_respects_constraints
    (rs : List Route) (fl : List Aircraft) (cb : List CrewBase)
    (objective : String) (out : SolverOutcome) (O : Optimizer)
    (dec : List (String × FreqDecision))
    (hO : O = mkOptimizer rs fl cb)
    (hsolver : SolverHonest O out)
    (hopt : (optimize O objective out).status = "Optimal")
    (hdec : dec = (optimize O objective out).decisions) :
    (∀ tbn ∈ O.fleet_by_type_base,
      ((O.routes.filter (fun kr => kr.2.origin = tbn.1.2)).map
        (fun kr => decidedFreq dec kr.1 tbn.1.1)).sum ≤ (tbn.2 : ℤ) * 5) ∧
    (∀ bc ∈ O.crew_bases,
      ((O.routes.filter (fun kr => kr.2.origin = bc.1)).map
        (fun kr => (acTypes.map (fun t => decidedFreq dec kr.1 t)).sum)).sum ≤
        ((bc.2.pilots_available * 4) / 2 : ℕ)) ∧
    (∀ kr ∈ O.routes, 0 < kr.2.min_frequency →
      (kr.2.min_frequency : ℤ) ≤ decidedTotal dec kr.1) ∧
    (∀ kr ∈ O.routes,
      (acTypes.map (fun t => (seatsOf t : ℚ) * (decidedFreq dec kr.1 t : ℚ))).sum ≤
        kr.2.daily_demand * 1.2) := by
  have houts : out.status = "Optimal" := by
    by_cases h : out.status = "Optimal"
    · exact h
    · exfalso
      unfold optimize at hopt
      rw [if_pos h] at hopt
      exact h hopt
  have hfeas : Feasible O out.assign := hsolver houts
  obtain ⟨hbounds, hfleet, hcrew, hmin, hdemand⟩ := hfeas
  have hdec2 : dec = extractFrequencies O out.assign := by
    rw [hdec]
    unfold optimize
    rw [if_neg (not_not_intro houts)]
  have hnd : (O.routes.map Prod.fst).Nodup := by
    rw [hO]
    exact nodup_keys_dictOfList _
  have hfreq_eq : ∀ kr ∈ O.routes, ∀ t ∈ acTypes,
      decidedFreq dec kr.1 t = out.assign kr.1 t := by
    intro kr hkr t ht
    rw [hdec2]
    exact decidedFreq_eq O out.assign hnd
      (show (kr.1, kr.2) ∈ O.routes from hkr) ht
      (fun u hu => (hbounds kr hkr u hu).1)
  refine ⟨?_, ?_, ?_, ?_⟩
  · intro tbn htbn
    by_cases ht : tbn.1.1 ∈ acTypes
    · have hc := hfleet tbn htbn ht
      unfold fleetUseSum at hc
      rw [sum_map_congr_mem _ _ (fun kr => out.assign kr.1 tbn.1.1)
        (fun kr hkr => hfreq_eq kr (List.mem_of_mem_filter hkr) tbn.1.1 ht)]
      exact hc
    · rw [sum_map_congr_mem _ _ (fun _ => 0)
        (fun kr hkr => by
          rw [hdec2]
          exact decidedFreq_not_acType O out.assign hnd
            (show (kr.1, kr.2) ∈ O.routes from List.mem_of_mem_filter hkr) ht)]
      have hz : ((O.routes.filter (fun kr => kr.2.origin = tbn.1.2)).map
          (fun _ => (0 : ℤ))).sum = 0 := by
        rw [List.sum_eq_zero]
        intro x hx
        rcases List.mem_map.mp hx with ⟨a, _, rfl⟩
        rfl
      rw [hz]
      positivity
  · intro bc hbc
    have hc := hcrew bc hbc
    unfold crewUseSum at hc
    rw [sum_map_congr_mem _ _
      (fun kr => (acTypes.map (fun t => out.assign kr.1 t)).sum)
      (fun kr hkr => sum_map_congr_mem _ _ _
        (fun t ht => hfreq_eq kr (List.mem_of_mem_filter hkr) t ht))]
    exact hc
  · intro kr hkr hminf
    have hc := hmin kr hkr hminf
    rw [hdec2, decidedTotal_eq O out.assign hnd
      (show (kr.1, kr.2) ∈ O.routes from hkr)
      (fun u hu => (hbounds kr hkr u hu).1)]
    exact hc
  · intro kr hkr
    have hc := hdemand kr hkr
    unfold dailySeats at hc
    rw [sum_map_congr_mem_q _ _
      (fun t => (seatsOf t : ℚ) * (out.assign kr.1 t : ℚ))
      (fun t ht => by rw [hfreq_eq kr hkr t ht])]
    exact hc

/-- Witness for C1: a one-route, one-aircraft, one-base instance on
which the solver outcome reports Optimal with one daily A320neo flight;
the hypotheses hold and the returned decisions satisfy the demand cap
family at the single route. -/
theorem optimize_optimal_respects_constraints_witness :
    SolverHonest witnessOptimizer witnessOutcome ∧
    (optimize witnessOptimizer "profit" witnessOutcome).status = "Optimal" ∧
    (∀ kr ∈ witnessOptimizer.routes,
      (acTypes.map (fun t => (seatsOf t : ℚ) *
        (decidedFreq (optimize witnessOptimizer "profit" witnessOutcome).decisions
          kr.1 t : ℚ))).sum ≤ kr.2.daily_demand * 1.2) := by
  have hsolver : SolverHonest witnessOptimizer witnessOutcome := by
    intro _
    unfold Feasible BoundsOk FleetOk CrewOk MinFreqOk DemandCapOk fleetUseSum
      crewUseSum routeFreqSum dailySeats
    with_unfolding_all decide
  have hopt : (optimize witnessOptimizer "profit" witnessOutcome).status = "Optimal" := by
    with_unfolding_all rfl
  exact ⟨hsolver, hopt,
    (optimize_optimal_respects_constraints
      [{ origin := "DTW", destination := "MCO", distance_nm := 950,
         daily_demand := 300, avg_fare := 120, competitors := 0,
         min_frequency := 0, max_frequency := 4 }]
      [{ registration := "N901NK", aircraft_type := "A320neo", seats := 182,
         home_base := "DTW", available := true }]
      [{ base := "DTW", pilots_available := 20, fas_available := 40 }]
      "profit" witnessOutcome witnessOptimizer
      (optimize witnessOptimizer "profit" witnessOutcome).decisions
      rfl hsolver hopt rfl).2.2.2⟩
